import Mathlib

/- Verification of the LedgerPro accounting engine: the balance engine
   (DB.getAccountBalances, PDFReport._getBalance), the statement engine
   (trial balance, income statement, balance sheet, general ledger), the
   posting operation (postJournalEntry) and the document classifier
   (PDFParser.classify, PDFParser.mapToJournalEntries), shallowly embedded
   from the JavaScript source.  Currency amounts are modelled as rationals;
   where the behaviour on arbitrarily-shaped stored data matters, a JS value
   type with NaN (modelled as Option.none) is used. -/

namespace LedgerPro

/-! ## Definitions: the embedded data model and operations -/

/-- The `type` field of an account record (a five-valued string in the source). -/
inductive AcctType where
  | Asset
  | Liability
  | Equity
  | Revenue
  | Expense
  deriving DecidableEq

/-- The `normal` field of an account record; the source compares it with the
string `'Credit'` and treats every other value as debit-normal. -/
inductive Side where
  | Debit
  | Credit
  deriving DecidableEq

/-- An account record of the chart of accounts store. -/
structure Account where
  id : String
  code : String
  name : String
  type : AcctType
  normal : Side
  deriving DecidableEq

/-- A persisted journal line record (numeric `debit`/`credit` fields, as
written by `postJournalEntry` and the PDF import). -/
structure Line where
  id : String
  entryId : String
  accountId : String
  description : String
  debit : ℚ
  credit : ℚ
  seq : Int
  deriving DecidableEq

/-- Assignment `m[k] = v` into a JS object used as a keyed map: overwrites in
place when the key is already present, otherwise appends (JS objects keep
first-insertion order for their non-index string keys). -/
def upsertKey {α : Type} (m : List (String × α)) (k : String) (v : α) : List (String × α) :=
  if m.any (fun p => decide (p.1 = k)) then m.map (fun p => if p.1 = k then (k, v) else p)
  else m ++ [(k, v)]

/-- The guarded update pattern `if (!m[l.accountId]) return; <update m[l.accountId]>`:
a contribution is applied only when the key is present in the map. -/
def bumpKey {α : Type} (m : List (String × α)) (k : String) (f : α → α) : List (String × α) :=
  if m.any (fun p => decide (p.1 = k)) then
    m.map (fun p => if p.1 = k then (p.1, f p.2) else p)
  else m

/-- `accounts.forEach(a => { map[a.id] = init a })`. -/
def buildKeyed {α : Type} (accounts : List Account) (init : Account → α) :
    List (String × α) :=
  accounts.foldl (fun m a => upsertKey m a.id (init a)) []

/-- The same forEach at the level of account records: a later account with a
duplicated id overwrites the earlier one in place, so this is the list of
accounts that actually survive in the keyed map, in key order. -/
def upsertAcct (m : List Account) (a : Account) : List Account :=
  if m.any (fun b => decide (b.id = a.id)) then m.map (fun b => if b.id = a.id then a else b)
  else m ++ [a]

/-- The accounts surviving the `map[a.id] = ...` forEach, in key order. -/
def dedupById (accounts : List Account) : List Account :=
  accounts.foldl upsertAcct []

/-- Raw per-account aggregation `Σ (if l.accountId = k then g l else 0)` over a
line list; `sumIf k (fun l => l.debit - l.credit) lines` is the raw balance of
the account with id `k`. -/
def sumIf (k : String) (g : Line → ℚ) (lines : List Line) : ℚ :=
  (lines.map (fun l => if l.accountId = k then g l else 0)).sum

/-- Raw balance of account id `k`: Σ debit − Σ credit over its lines. -/
def rawSum (k : String) (lines : List Line) : ℚ :=
  sumIf k (fun l => l.debit - l.credit) lines

/-- Output record of `DB.getAccountBalances`: the spread account fields plus
the internal `computed` accumulator and the derived display `balance`. -/
structure BalRec where
  account : Account
  computed : ℚ
  balance : ℚ
  deriving DecidableEq

/-- `DB.getAccountBalances` (src/db.js lines 214-228): build a map keyed by
account id, fold every line with a known accountId into its `computed`
accumulator as `debit − credit` (unknown ids are skipped by the
`if (!balanceMap[l.accountId]) return` guard), then flip the sign for display
when the account is credit-normal.  On numeric stored data the `(l.debit || 0)`
coercions are the identity. -/
def getAccountBalances (accounts : List Account) (lines : List Line) : List BalRec :=
  let balanceMap :=
    lines.foldl
      (fun m l => bumpKey m l.accountId (fun v => (v.1, v.2 + (l.debit - l.credit))))
      (buildKeyed accounts (fun a => (a, (0 : ℚ))))
  balanceMap.map (fun p =>
    { account := p.2.1, computed := p.2.2,
      balance := if p.2.1.normal = Side.Credit then -p.2.2 else p.2.2 })

/-- `PDFReport._getBalance(account, lines)` (src/unnamed/part_000 lines
332-336): filter the account's lines, reduce `debit − credit`, flip the sign
for a credit-normal account. -/
def pdfGetBalance (account : Account) (lines : List Line) : ℚ :=
  let accLines := lines.filter (fun l => decide (l.accountId = account.id))
  let computed := accLines.foldl (fun s l => s + (l.debit - l.credit)) 0
  if account.normal = Side.Credit then -computed else computed

/-- One step of the per-line update as seen at a fixed key. -/
def stepAt {L α : Type} (key : L → String) (k : String) (step : L → α → α) (v : α) (l : L) : α :=
  if key l = k then step l v else v

/-- Flip a normal side. -/
def flipSide : Side → Side
  | Side.Debit => Side.Credit
  | Side.Credit => Side.Debit

/-- Flip the declared normal side of an account. -/
def flipAccount (a : Account) : Account :=
  { a with normal := flipSide a.normal }

/-- Swap the debit and credit amounts of a line. -/
def flipLine (l : Line) : Line :=
  { l with debit := l.credit, credit := l.debit }

/-- Characters of a string with JS `trim` applied to both ends. -/
def trimChars (cs : List Char) : List Char :=
  ((cs.dropWhile Char.isWhitespace).reverse.dropWhile Char.isWhitespace).reverse

/-- Natural number denoted by a list of decimal digit characters. -/
def natFromDigits (cs : List Char) : ℕ :=
  cs.foldl (fun n c => n * 10 + (c.toNat - '0'.toNat)) 0

/-- Value of a sign, integer-digit and fraction-digit decomposition; `none`
when there is no digit at all. -/
def numFromParts (sign : ℚ) (d1 d2 : List Char) : Option ℚ :=
  if d1.length + d2.length = 0 then none
  else some (sign * ((natFromDigits d1 : ℚ) + (natFromDigits d2 : ℚ) / (10 : ℚ) ^ d2.length))

/-- Modelled JS `Number(string)` on the decimal fragment: whitespace trimmed
from both ends, the empty string is 0, then an optional sign, integer digits
and an optional fraction, with nothing left over.  The hexadecimal, exponent
and Infinity forms of the full JS grammar are outside the modelled fragment
and are treated as non-numeric (`none`, i.e. NaN). -/
def jsStrToNumber (s : String) : Option ℚ :=
  let t := trimChars s.toList
  if t.isEmpty then some 0 else
  match t with
  | '-' :: r => jsStrToNumberCore (-1) r
  | '+' :: r => jsStrToNumberCore 1 r
  | _ => jsStrToNumberCore 1 t
where
  /-- Parse unsigned `digits [. digits]` with nothing left over. -/
  jsStrToNumberCore (sign : ℚ) (u : List Char) : Option ℚ :=
    let d1 := u.takeWhile Char.isDigit
    match u.dropWhile Char.isDigit with
    | [] => numFromParts sign d1 []
    | '.' :: r2 =>
        if (r2.dropWhile Char.isDigit).isEmpty then
          numFromParts sign d1 (r2.takeWhile Char.isDigit)
        else none
    | _ => none

/-- A stored JS/JSON value as it can appear in a line's `debit`/`credit`
field (finite numbers only: JSON cannot hold NaN or Infinity). -/
inductive JSVal where
  | undef
  | nullv
  | num (q : ℚ)
  | str (s : String)
  | boolv (b : Bool)
  deriving DecidableEq

/-- JS truthiness of a stored value. -/
def JSVal.truthy : JSVal → Bool
  | .undef => false
  | .nullv => false
  | .num q => decide (q ≠ 0)
  | .str s => decide (s ≠ "")
  | .boolv b => b

/-- The `v || 0` coercion used on line fields. -/
def jsOrZero (v : JSVal) : JSVal :=
  if v.truthy then v else .num 0

/-- JS ToNumber of a stored value; `none` models NaN. -/
def JSVal.toNumber : JSVal → Option ℚ
  | .undef => none
  | .nullv => some 0
  | .num q => some q
  | .str s => jsStrToNumber s
  | .boolv b => some (if b then 1 else 0)

/-- NaN-propagating addition on JS numbers. -/
def nanAdd (a b : Option ℚ) : Option ℚ :=
  match a, b with
  | some x, some y => some (x + y)
  | _, _ => none

/-- NaN-propagating subtraction on JS numbers. -/
def nanSub (a b : Option ℚ) : Option ℚ :=
  match a, b with
  | some x, some y => some (x - y)
  | _, _ => none

/-- NaN-propagating negation on JS numbers. -/
def nanNeg (a : Option ℚ) : Option ℚ :=
  match a with
  | some x => some (-x)
  | none => none

/-- The contribution `(l.debit || 0) - (l.credit || 0)` of one line. -/
def lineContribution (debit credit : JSVal) : Option ℚ :=
  nanSub (jsOrZero debit).toNumber (jsOrZero credit).toNumber

/-- A stored line record of arbitrary shape; only the fields
`DB.getAccountBalances` reads are modelled. -/
structure LineJS where
  accountId : String
  debit : JSVal
  credit : JSVal
  deriving DecidableEq

/-- Output record of `DB.getAccountBalances` under JS value semantics. -/
structure BalRecJs where
  account : Account
  computed : Option ℚ
  balance : Option ℚ
  deriving DecidableEq

/-- `DB.getAccountBalances` (src/db.js lines 214-228) under JS value
semantics, for stored line data of arbitrary shape: the same keyed map and
fold as `getAccountBalances`, with `computed += (l.debit || 0) - (l.credit || 0)`
performed in NaN-propagating JS number arithmetic. -/
def getAccountBalancesJs (accounts : List Account) (lines : List LineJS) : List BalRecJs :=
  let balanceMap :=
    lines.foldl
      (fun m l => bumpKey m l.accountId
        (fun v => (v.1, nanAdd v.2 (lineContribution l.debit l.credit))))
      (buildKeyed accounts (fun a => (a, some (0 : ℚ))))
  balanceMap.map (fun p =>
    { account := p.2.1, computed := p.2.2,
      balance := if p.2.1.normal = Side.Credit then nanNeg p.2.2 else p.2.2 })

/-- Modelled JS `parseFloat` on the decimal fragment: leading whitespace
skipped, then the longest prefix of the form sign, integer digits, optional
fraction digits is taken (trailing junk ignored); no digits at all is NaN
(`none`).  The exponent, hexadecimal and Infinity forms of the full JS
grammar are outside the modelled fragment. -/
def parseFloatChars (cs : List Char) : Option ℚ :=
  let t := cs.dropWhile Char.isWhitespace
  let su : ℚ × List Char :=
    match t with
    | '-' :: r => (-1, r)
    | '+' :: r => (1, r)
    | _ => (1, t)
  let d1 := su.2.takeWhile Char.isDigit
  let r1 := su.2.dropWhile Char.isDigit
  let d2 := match r1 with
    | '.' :: r2 => r2.takeWhile Char.isDigit
    | _ => ([] : List Char)
  numFromParts su.1 d1 d2

/-- JS `parseFloat` on a stored value (the argument is stringified first, so
numbers parse back to themselves and undefined/null/booleans are NaN). -/
def jsParseFloat : JSVal → Option ℚ
  | .num q => some q
  | .str s => parseFloatChars s.toList
  | .undef => none
  | .nullv => none
  | .boolv _ => none

/-- The `parseFloat(x) || 0` coercion of the posting code: NaN becomes 0. -/
def pfOrZero (v : JSVal) : ℚ :=
  (jsParseFloat v).getD 0

/-- The `parseFloat(x) > 0` test of the posting code (false on NaN). -/
def pfPos (v : JSVal) : Bool :=
  match jsParseFloat v with
  | some q => decide (0 < q)
  | none => false

/-- A draft line of the journal-entry form (module state `journalLines`): the
account select's value and the text-input values of the amount fields. -/
structure DraftLine where
  accountId : String
  description : String
  debit : JSVal
  credit : JSVal
  deriving DecidableEq

/-- A line as persisted by `postJournalEntry` (the generated line id and
entry id are fresh uids, not modelled). -/
structure PostedLine where
  accountId : String
  description : String
  debit : ℚ
  credit : ℚ
  seq : ℕ
  deriving DecidableEq

/-- `totalDr` of `postJournalEntry`. -/
def draftTotalDr (journalLines : List DraftLine) : ℚ :=
  (journalLines.map (fun l => pfOrZero l.debit)).sum

/-- `totalCr` of `postJournalEntry`. -/
def draftTotalCr (journalLines : List DraftLine) : ℚ :=
  (journalLines.map (fun l => pfOrZero l.credit)).sum

/-- `validLines` of `postJournalEntry`: an account selected and a positive
debit or credit. -/
def validDraftLines (journalLines : List DraftLine) : List DraftLine :=
  journalLines.filter (fun l => decide (l.accountId ≠ "") && (pfPos l.debit || pfPos l.credit))

/-- `postJournalEntry` (src/unnamed/part_000 lines 937-976): reject when date
or description is empty, when `|totalDr − totalCr| > 0.001`, when
`totalDr === 0`, or when fewer than 2 valid lines; otherwise persist the
valid lines (only), with coerced amounts and 1-based seq.  The generated
entry record and uids are not modelled; the error strings are the shown
toasts. -/
def postJournalEntry (date desc : String) (journalLines : List DraftLine) :
    Except String (List PostedLine) :=
  if date = "" ∨ desc = "" then .error "Please fill in date and description" else
  if |draftTotalDr journalLines - draftTotalCr journalLines| > 1/1000 then
    .error "Entry not balanced! Debits must equal Credits" else
  if draftTotalDr journalLines = 0 then .error "Entry has no amounts" else
  if (validDraftLines journalLines).length < 2 then
    .error "At least 2 lines with accounts and amounts required" else
  .ok ((validDraftLines journalLines).enum.map (fun p =>
    { accountId := p.2.accountId, description := p.2.description,
      debit := pfOrZero p.2.debit, credit := pfOrZero p.2.credit, seq := p.1 + 1 }))

/-- JS `xs.sort((a,b) => a.code.localeCompare(b.code))`: a stable sort by
code.  It is modelled with insertion sort (also stable); `localeCompare` is
modelled as the lexicographic order on strings.  No claim depends on the
relative order of equal codes or on locale-specific collation. -/
def sortByCode (accounts : List Account) : List Account :=
  List.insertionSort (fun a b => a.code ≤ b.code) accounts

/-- The account list as obtained by the renderers from
`DB.getAccountBalances()` (each record spreads the stored account fields). -/
def balancesAccounts (accounts : List Account) (lines : List Line) : List Account :=
  (getAccountBalances accounts lines).map BalRec.account

/-- Balance Sheet view data (`renderBalanceSheet`, src/unnamed/part_000 lines
1401-1478): per-section line items (name, display balance) over all accounts
of the section's type sorted by code, section totals over the same accounts,
the synthetic current-period net income added to equity, and the
`balanced` flag `|totalAssets − totalLiabEquity| < 0.01`. -/
structure BalanceSheet where
  assetItems : List (String × ℚ)
  liabItems : List (String × ℚ)
  eqItems : List (String × ℚ)
  totalAssets : ℚ
  totalLiab : ℚ
  netInc : ℚ
  totalEquity : ℚ
  totalLiabEquity : ℚ
  balanced : Bool
  deriving DecidableEq

def renderBalanceSheet (accounts : List Account) (lines : List Line) : BalanceSheet :=
  let accs := balancesAccounts accounts lines
  let assets := sortByCode (accs.filter (fun a => decide (a.type = AcctType.Asset)))
  let liabs := sortByCode (accs.filter (fun a => decide (a.type = AcctType.Liability)))
  let equity := sortByCode (accs.filter (fun a => decide (a.type = AcctType.Equity)))
  let totalAssets := (assets.map (fun a => pdfGetBalance a lines)).sum
  let totalLiab := (liabs.map (fun a => pdfGetBalance a lines)).sum
  let revenues := accs.filter (fun a => decide (a.type = AcctType.Revenue))
  let expenses := accs.filter (fun a => decide (a.type = AcctType.Expense))
  let netInc := (revenues.map (fun a => pdfGetBalance a lines)).sum
    - (expenses.map (fun a => pdfGetBalance a lines)).sum
  let totalEquity := (equity.map (fun a => pdfGetBalance a lines)).sum + netInc
  let totalLiabEquity := totalLiab + totalEquity
  { assetItems := assets.map (fun a => (a.name, pdfGetBalance a lines)),
    liabItems := liabs.map (fun a => (a.name, pdfGetBalance a lines)),
    eqItems := equity.map (fun a => (a.name, pdfGetBalance a lines)),
    totalAssets, totalLiab, netInc, totalEquity, totalLiabEquity,
    balanced := decide (|totalAssets - totalLiabEquity| < 1/100) }

/-- Income Statement view data (`renderIncomeStatement`, src/unnamed/part_000
lines 1326-1398): revenue items over all revenue accounts sorted by code (no
zero-balance filter in this on-screen path), COGS pulled out as the first
expense account with code `'5000'`, gross profit, operating expense items
over the remaining expense accounts, and net income. -/
structure IncomeStatement where
  revItems : List (String × ℚ)
  totalRev : ℚ
  cogsItem : Option (String × ℚ)
  totalCOGS : ℚ
  grossProfit : ℚ
  opExItems : List (String × ℚ)
  totalOpEx : ℚ
  netIncome : ℚ
  deriving DecidableEq

def renderIncomeStatement (accounts : List Account) (lines : List Line) : IncomeStatement :=
  let accs := balancesAccounts accounts lines
  let revenues := sortByCode (accs.filter (fun a => decide (a.type = AcctType.Revenue)))
  let expenses := sortByCode (accs.filter (fun a => decide (a.type = AcctType.Expense)))
  let totalRev := (revenues.map (fun a => pdfGetBalance a lines)).sum
  let cogs := expenses.find? (fun a => decide (a.code = "5000"))
  let totalCOGS := match cogs with
    | some c => pdfGetBalance c lines
    | none => 0
  let opEx := expenses.filter (fun a => decide (a.code ≠ "5000"))
  let totalOpEx := (opEx.map (fun a => pdfGetBalance a lines)).sum
  { revItems := revenues.map (fun a => (a.name, pdfGetBalance a lines)),
    totalRev,
    cogsItem := cogs.map (fun c => (c.name, pdfGetBalance c lines)),
    totalCOGS,
    grossProfit := totalRev - totalCOGS,
    opExItems := opEx.map (fun a => (a.name, pdfGetBalance a lines)),
    totalOpEx,
    netIncome := totalRev - totalCOGS - totalOpEx }

/-- Income-statement data of the PDF export (`PDFReport.generate`, income
branch, src/unnamed/part_000 lines 146-179): same totals, but zero-balance
accounts produce no `dataRow`, the account lists are not sorted, and the COGS
account is looked up by code `'5000'` over all accounts. -/
structure PdfIncome where
  revItems : List (String × ℚ)
  totalRev : ℚ
  cogsItem : Option (String × ℚ)
  grossProfit : ℚ
  opExItems : List (String × ℚ)
  totalExp : ℚ
  netIncome : ℚ
  deriving DecidableEq

def pdfIncomeStatement (accounts : List Account) (lines : List Line) : PdfIncome :=
  let accs := balancesAccounts accounts lines
  let revenues := accs.filter (fun a => decide (a.type = AcctType.Revenue))
  let expenses := accs.filter (fun a => decide (a.type = AcctType.Expense))
  let totalRev := ((revenues.map (fun a => pdfGetBalance a lines)).filter
    (fun b => decide (b ≠ 0))).sum
  let cogs := accs.find? (fun a => decide (a.code = "5000"))
  let cogsBal := match cogs with
    | some c => pdfGetBalance c lines
    | none => 0
  let opEx := expenses.filter (fun a => decide (a.code ≠ "5000"))
  let totalExp := cogsBal + ((opEx.map (fun a => pdfGetBalance a lines)).filter
    (fun b => decide (b ≠ 0))).sum
  { revItems := (revenues.map (fun a => (a.name, pdfGetBalance a lines))).filter
      (fun r => decide (r.2 ≠ 0)),
    totalRev,
    cogsItem := if cogsBal ≠ 0 then cogs.map (fun c => (c.name, cogsBal)) else none,
    grossProfit := totalRev - cogsBal,
    opExItems := (opEx.map (fun a => (a.name, pdfGetBalance a lines))).filter
      (fun r => decide (r.2 ≠ 0)),
    totalExp,
    netIncome := totalRev - totalExp }

/-- Trial Balance view data (`renderTrialBalance`, src/unnamed/part_000 lines
1481-1557): per-account gross debit and credit totals keyed by account id
(lines with an unknown accountId are skipped by the
`if (!acctTotals[l.accountId]) return` guard), restricted to accounts with a
positive debit or credit total, sorted by code; grand totals over those rows
and the `balanced` flag `|totalDr − totalCr| < 0.01`. -/
structure TrialBalance where
  rows : List (Account × ℚ × ℚ)
  totalDr : ℚ
  totalCr : ℚ
  balanced : Bool
  deriving DecidableEq

def renderTrialBalance (accounts : List Account) (lines : List Line) : TrialBalance :=
  let acctTotals :=
    lines.foldl
      (fun m l => bumpKey m l.accountId
        (fun v : Account × ℚ × ℚ => (v.1, v.2.1 + l.debit, v.2.2 + l.credit)))
      (buildKeyed accounts (fun a => (a, (0 : ℚ), (0 : ℚ))))
  let activeAccounts := (acctTotals.map Prod.snd).filter
    (fun v => decide (0 < v.2.1) || decide (0 < v.2.2))
  let sorted := List.insertionSort
    (fun x y : Account × ℚ × ℚ => x.1.code ≤ y.1.code) activeAccounts
  let totalDr := (sorted.map (fun v => v.2.1)).sum
  let totalCr := (sorted.map (fun v => v.2.2)).sum
  { rows := sorted, totalDr, totalCr,
    balanced := decide (|totalDr - totalCr| < 1/100) }

/-- Stateful `runBal += l.debit - l.credit` accumulation over a line list,
returning the running balance after each line. -/
def runBalsFrom (s : ℚ) : List Line → List ℚ
  | [] => []
  | l :: ls => (s + (l.debit - l.credit)) :: runBalsFrom (s + (l.debit - l.credit)) ls

/-- Per-line display balances of the on-screen General Ledger
(`renderGLData`, src/unnamed/part_000 lines 1278-1291): the raw running
balance re-signed per the account's normal side. -/
def glDisplayBalances (acc : Account) (accLines : List Line) : List ℚ :=
  (runBalsFrom 0 accLines).map (fun r => if acc.normal = Side.Credit then -r else r)

/-- On-screen General Ledger sections (`renderGLData`, default unfiltered
view; the optional account and date filters are UI state outside the claims):
accounts sorted by code, restricted to those with at least one line, each
with its display running-balance column. -/
def renderGLData (accounts : List Account) (lines : List Line) :
    List (Account × List ℚ) :=
  ((List.insertionSort (fun a b : Account => a.code ≤ b.code) accounts).filter
      (fun a => lines.any (fun l => decide (l.accountId = a.id)))).map
    (fun a => (a, glDisplayBalances a (lines.filter (fun l => decide (l.accountId = a.id)))))

/-- General-ledger sections of the PDF export (`PDFReport.generate`, ledger
branch, src/unnamed/part_000 lines 281-326): accounts from
`DB.getAccountBalances()` in store order (no sort), restricted to those with
at least one line; the balance column is the raw `runBal` accumulation with
no re-signing by normal side. -/
def pdfLedgerSections (accounts : List Account) (lines : List Line) :
    List (Account × List ℚ) :=
  ((balancesAccounts accounts lines).filter
      (fun a => lines.any (fun l => decide (l.accountId = a.id)))).map
    (fun a => (a, runBalsFrom 0 (lines.filter (fun l => decide (l.accountId = a.id)))))

/-- One attempt of the amount regex `\$?\s*([\d,]+(?:\.\d{2})?)` at the head
of the character list: optional `$`, any whitespace, one or more digits or
commas, then an optional fraction of exactly two digits; returns the capture
group and the rest of the line after the match, or `none` when the pattern
does not match here. -/
def tryMatchTok (cs : List Char) : Option (List Char × List Char) :=
  let cs1 := match cs with
    | '$' :: r => r
    | _ => cs
  let cs2 := cs1.dropWhile Char.isWhitespace
  let d1 := cs2.takeWhile (fun c => c.isDigit || c == ',')
  let r1 := cs2.dropWhile (fun c => c.isDigit || c == ',')
  if d1.isEmpty then none
  else match r1 with
    | '.' :: a :: b :: rest =>
        if a.isDigit && b.isDigit then some (d1 ++ ['.', a, b], rest)
        else some (d1, r1)
    | _ => some (d1, r1)

/-- Global scan of the amount regex over a line, leftmost-match first, as a
`while (exec)` loop: returns the captured tokens in order together with the
characters of the line that belong to no match (what a global replace by the
empty string leaves).  The fuel is the line length; every step consumes at
least one character, so it never runs out. -/
def scanGo : ℕ → List Char → List String × List Char
  | 0, _ => ([], [])
  | _ + 1, [] => ([], [])
  | n + 1, c :: rest =>
    match tryMatchTok (c :: rest) with
    | some (cap, rem) =>
        let res := scanGo n rem
        (String.mk cap :: res.1, res.2)
    | none =>
        let res := scanGo n rest
        (res.1, c :: res.2)

/-- Scan a whole line. -/
def scanLine (cs : List Char) : List String × List Char :=
  scanGo cs.length cs

/-- The currency-like tokens of a line, in order. -/
def tokensOf (line : String) : List String :=
  (scanLine line.toList).1

/-- Case-insensitive substring test, for one keyword. -/
def containsRun : List Char → List Char → Bool
  | pat, [] => pat.isEmpty
  | pat, c :: rest => pat.isPrefixOf (c :: rest) || containsRun pat rest

/-- A keyword-set regex `/w1|w2|.../i` tested against a line: some word is a
substring of the lowercased line (the keywords are already lowercase). -/
def testKw (words : List String) (line : String) : Bool :=
  words.any (fun w => containsRun w.toList (line.toList.map Char.toLower))

/-- The asset keyword set `assetKw`. -/
def assetKwList : List String :=
  ["cash", "bank", "receivable", "inventory", "equipment", "asset", "prepaid",
   "investment", "property"]

/-- The liability keyword set `liabKw`. -/
def liabKwList : List String :=
  ["payable", "loan", "debt", "liability", "liabilities", "credit",
   "note payable", "mortgage"]

/-- The revenue keyword set `revKw`. -/
def revKwList : List String :=
  ["revenue", "income", "sales", "service", "earning", "gain"]

/-- The expense keyword set `expKw`. -/
def expKwList : List String :=
  ["expense", "cost", "salary", "salaries", "wages", "rent", "utility",
   "utilities", "depreciation", "insurance", "advertising", "fee"]

/-- Whitespace-run collapsing, `replace(/\s+/g, ' ')`. -/
def collapseGo : Bool → List Char → List Char
  | _, [] => []
  | prevWs, c :: rest =>
    if c.isWhitespace then
      (if prevWs then collapseGo true rest else ' ' :: collapseGo true rest)
    else c :: collapseGo false rest

/-- Collapse every whitespace run to a single space. -/
def collapseWs (cs : List Char) : List Char :=
  collapseGo false cs

/-- A classified line item produced by `PDFParser.classify`. -/
structure Candidate where
  description : String
  amount : ℚ
  category : AcctType
  originalLine : String
  deriving DecidableEq

/-- The positive parsed values of a line's currency tokens, in order: each
capture has its commas removed and is parsed with `parseFloat`; only values
`> 0` are kept (`if (val > 0) amounts.push(val)`). -/
def positiveAmounts (line : String) : List ℚ :=
  (tokensOf line).filterMap (fun t =>
    match parseFloatChars (t.toList.filter (fun c => !(c == ','))) with
    | some q => if 0 < q then some q else none
    | none => none)

/-- Classification of a single trimmed line (the body of the forEach in
`PDFParser.classify`, src/unnamed/part_000 lines 374-399): the amount is the
last positive token value; the category is the first keyword set that
matches, in asset, liability, revenue, expense order; the line is dropped
when there is no positive token, no category, the amount is below 1, or the
stripped-and-collapsed description is at most 3 characters. -/
def classifyLine (line : String) : Option Candidate :=
  let amounts := positiveAmounts line
  match amounts.getLast? with
  | none => none
  | some amount =>
    let category : Option AcctType :=
      if testKw assetKwList line then some AcctType.Asset
      else if testKw liabKwList line then some AcctType.Liability
      else if testKw revKwList line then some AcctType.Revenue
      else if testKw expKwList line then some AcctType.Expense
      else none
    match category with
    | some cat =>
        if 1 ≤ amount then
          let desc := String.mk ((collapseWs (trimChars (scanLine line.toList).2)).take 60)
          if 3 < desc.length then
            some { description := desc, amount := amount, category := cat,
                   originalLine := line }
          else none
        else none
    | none => none

/-- Split extracted text on newlines. -/
def splitNl : List Char → List (List Char)
  | [] => [[]]
  | c :: rest =>
    let r := splitNl rest
    if c == '\n' then [] :: r
    else match r with
      | [] => [[c]]
      | h :: t => (c :: h) :: t

/-- `PDFParser.classify` (src/unnamed/part_000 lines 361-402): split into
lines, trim, drop blank lines, classify each line. -/
def classify (text : String) : List Candidate :=
  ((((splitNl text.toList).map (fun cs => String.mk (trimChars cs))).filter
      (fun s => decide (s ≠ ""))).filterMap classifyLine)

/-- A proposed journal-entry candidate produced by
`PDFParser.mapToJournalEntries`; the account fields are `Option` because the
source can leave them `undefined`. -/
structure CandidateEntry where
  description : String
  amount : ℚ
  category : AcctType
  debitAccount : Option Account
  creditAccount : Option Account
  selected : Bool
  deriving DecidableEq

/-- `PDFParser.mapToJournalEntries` (src/unnamed/part_000 lines 404-460).
The Asset branch's first two assignments are dead stores immediately
overwritten; the final values are modelled.  The `|| accounts[0]` fallback
exists only on the typed-side lookups — the cash-side
`accounts.find(a => a.code === '1000')` has none, and `accounts[0]` on an
empty list is `undefined` (`none`).  An Equity item matches no branch, so
both sides stay `undefined`. -/
def mapToJournalEntries (classified : List Candidate) (accounts : List Account) :
    List CandidateEntry :=
  classified.map (fun item =>
    let pair : Option Account × Option Account :=
      match item.category with
      | AcctType.Asset =>
          ((accounts.find? (fun a =>
              decide (a.type = AcctType.Asset) && decide (a.code ≠ "1000"))).orElse
            (fun _ => accounts.head?),
           accounts.find? (fun a => decide (a.code = "1000")))
      | AcctType.Liability =>
          (accounts.find? (fun a => decide (a.code = "1000")),
           (accounts.find? (fun a => decide (a.type = AcctType.Liability))).orElse
            (fun _ => accounts.head?))
      | AcctType.Revenue =>
          (accounts.find? (fun a => decide (a.code = "1000")),
           (accounts.find? (fun a => decide (a.type = AcctType.Revenue))).orElse
            (fun _ => accounts.head?))
      | AcctType.Expense =>
          ((accounts.find? (fun a => decide (a.type = AcctType.Expense))).orElse
            (fun _ => accounts.head?),
           accounts.find? (fun a => decide (a.code = "1000")))
      | AcctType.Equity => (none, none)
    { description := item.description, amount := item.amount, category := item.category,
      debitAccount := pair.1, creditAccount := pair.2, selected := true })

/-- Every journal entry present in the line list balances individually: for
each entryId value occurring among the lines, the group's debits equal its
credits. -/
def entriesBalanced (lines : List Line) : Prop :=
  ∀ eid ∈ lines.map Line.entryId,
    ((lines.filter (fun l => decide (l.entryId = eid))).map Line.debit).sum
      = ((lines.filter (fun l => decide (l.entryId = eid))).map Line.credit).sum

/-- An account's declared normal side follows the bookkeeping convention for
its type: assets and expenses debit-normal, liabilities, equity and revenue
credit-normal. -/
def conventionalNormal (a : Account) : Bool :=
  match a.type with
  | AcctType.Asset => decide (a.normal = Side.Debit)
  | AcctType.Expense => decide (a.normal = Side.Debit)
  | _ => decide (a.normal = Side.Credit)

/-- The display balance signed the way it enters the accounting-equation gap:
positively for assets and expenses, negatively for the credit-side types. -/
def typeSigned (f : Account → ℚ) (a : Account) : ℚ :=
  match a.type with
  | AcctType.Asset => f a
  | AcctType.Liability => -f a
  | AcctType.Equity => -f a
  | AcctType.Revenue => -f a
  | AcctType.Expense => f a

/-- The trial-balance rows, characterized: the surviving accounts with their
gross per-account debit and credit sums, of which only the rows with a
positive total remain, sorted by code. -/
def trialRows (accounts : List Account) (lines : List Line) : List (Account × ℚ × ℚ) :=
  List.insertionSort (fun x y : Account × ℚ × ℚ => x.1.code ≤ y.1.code)
    (((dedupById accounts).map
        (fun a => (a, sumIf a.id Line.debit lines, sumIf a.id Line.credit lines))).filter
      (fun v => decide (0 < v.2.1) || decide (0 < v.2.2)))

/-! ## Theorems -/

/-! ### Keyed-map characterization lemmas -/

theorem bumpKey_eq_map {α : Type} (m : List (String × α)) (k : String) (f : α → α) :
    bumpKey m k f = m.map (fun p => if p.1 = k then (p.1, f p.2) else p) := by
  unfold bumpKey
  by_cases h : m.any (fun p => decide (p.1 = k)) = true
  · rw [if_pos h]
  · rw [if_neg h]
    have hne : ∀ p ∈ m, ¬ p.1 = k := by
      intro p hp hk
      apply h
      rw [List.any_eq_true]
      exact ⟨p, hp, by simpa using hk⟩
    symm
    calc m.map (fun p => if p.1 = k then (p.1, f p.2) else p)
        = m.map id := List.map_congr_left (fun p hp => by simp [hne p hp])
      _ = m := List.map_id m

theorem foldl_bumpKey {L α : Type} (key : L → String) (step : L → α → α) (lines : List L)
    (M : List (String × α)) :
    lines.foldl (fun m l => bumpKey m (key l) (step l)) M
      = M.map (fun p => (p.1, lines.foldl (stepAt key p.1 step) p.2)) := by
  induction lines generalizing M with
  | nil =>
    simp only [List.foldl_nil]
    symm
    exact (List.map_congr_left (fun p _ => rfl)).trans (List.map_id M)
  | cons l ls ih =>
    rw [List.foldl_cons, ih, bumpKey_eq_map, List.map_map]
    apply List.map_congr_left
    intro p _
    simp only [Function.comp_apply]
    rw [List.foldl_cons]
    by_cases h : p.1 = key l
    · rw [if_pos h, show stepAt key p.1 step p.2 l = step l p.2 from if_pos h.symm]
    · rw [if_neg h, show stepAt key p.1 step p.2 l = p.2 from if_neg (fun he => h he.symm)]

theorem foldl_upsert_embed {α : Type} (init : Account → α) (accounts : List Account)
    (m0 : List Account) :
    accounts.foldl (fun m a => upsertKey m a.id (init a)) (m0.map (fun a => (a.id, init a)))
      = (accounts.foldl upsertAcct m0).map (fun a => (a.id, init a)) := by
  induction accounts generalizing m0 with
  | nil => simp
  | cons a as ih =>
    rw [List.foldl_cons, List.foldl_cons]
    have hstep : upsertKey (m0.map (fun b => (b.id, init b))) a.id (init a)
        = (upsertAcct m0 a).map (fun b => (b.id, init b)) := by
      unfold upsertKey upsertAcct
      have hany : (m0.map (fun b => (b.id, init b))).any (fun p => decide (p.1 = a.id))
          = m0.any (fun b => decide (b.id = a.id)) := by
        induction m0 with
        | nil => rfl
        | cons b bs ihb => simp [List.any_cons, ihb]
      rw [hany]
      by_cases h : m0.any (fun b => decide (b.id = a.id))
      · simp only [h, if_true, List.map_map]
        apply List.map_congr_left
        intro b _
        by_cases hb : b.id = a.id
        · simp [Function.comp, hb]
        · simp [Function.comp, hb]
      · simp [h]
    rw [hstep, ih]

theorem buildKeyed_eq {α : Type} (accounts : List Account) (init : Account → α) :
    buildKeyed accounts init = (dedupById accounts).map (fun a => (a.id, init a)) := by
  have h := foldl_upsert_embed init accounts []
  simpa [buildKeyed, dedupById] using h

/-! ### Facts about `dedupById` -/

theorem upsertAcct_ids_of_mem (m : List Account) (a : Account)
    (h : m.any (fun b => decide (b.id = a.id))) :
    (upsertAcct m a).map Account.id = m.map Account.id := by
  unfold upsertAcct
  rw [if_pos h, List.map_map]
  apply List.map_congr_left
  intro b _
  by_cases hb : b.id = a.id
  · simp [Function.comp, hb]
  · simp [Function.comp, hb]

theorem foldl_upsertAcct_nodup (accounts : List Account) (m0 : List Account)
    (h0 : (m0.map Account.id).Nodup) :
    ((accounts.foldl upsertAcct m0).map Account.id).Nodup := by
  induction accounts generalizing m0 with
  | nil => simpa using h0
  | cons a as ih =>
    rw [List.foldl_cons]
    apply ih
    by_cases h : m0.any (fun b => decide (b.id = a.id))
    · rw [upsertAcct_ids_of_mem m0 a h]; exact h0
    · unfold upsertAcct
      rw [if_neg h, List.map_append]
      simp only [List.map_cons, List.map_nil]
      rw [List.nodup_append]
      refine ⟨h0, List.nodup_singleton _, ?_⟩
      intro x hx
      simp only [List.mem_singleton]
      intro hxa
      simp only [List.any_eq_true, decide_eq_true_eq] at h
      rcases List.mem_map.mp hx with ⟨b, hb, hbid⟩
      exact h ⟨b, hb, by rw [hbid, hxa]⟩

theorem dedupById_ids_nodup (accounts : List Account) :
    ((dedupById accounts).map Account.id).Nodup :=
  foldl_upsertAcct_nodup accounts [] (by simp)

theorem foldl_upsertAcct_subset (accounts : List Account) (m0 : List Account) :
    ∀ x ∈ accounts.foldl upsertAcct m0, x ∈ m0 ∨ x ∈ accounts := by
  induction accounts generalizing m0 with
  | nil => intro x hx; exact Or.inl hx
  | cons a as ih =>
    intro x hx
    rw [List.foldl_cons] at hx
    rcases ih (upsertAcct m0 a) x hx with hm | has
    · unfold upsertAcct at hm
      by_cases h : m0.any (fun b => decide (b.id = a.id))
      · rw [if_pos h] at hm
        rcases List.mem_map.mp hm with ⟨b, hb, hbx⟩
        by_cases hbid : b.id = a.id
        · simp only [hbid, if_pos rfl] at hbx
          exact Or.inr (by simp [← hbx])
        · simp only [hbid, if_neg hbid] at hbx
          exact Or.inl (hbx ▸ hb)
      · rw [if_neg h] at hm
        rcases List.mem_append.mp hm with hb | hb
        · exact Or.inl hb
        · exact Or.inr (by simp [List.mem_singleton.mp hb])
    · exact Or.inr (List.mem_cons_of_mem a has)

theorem dedupById_subset (accounts : List Account) :
    ∀ x ∈ dedupById accounts, x ∈ accounts := by
  intro x hx
  rcases foldl_upsertAcct_subset accounts [] x hx with h | h
  · cases h
  · exact h

theorem foldl_upsertAcct_key_mem (accounts : List Account) (m0 : List Account) (k : String)
    (hk : (∃ b ∈ m0, b.id = k) ∨ (∃ a ∈ accounts, a.id = k)) :
    ∃ x ∈ accounts.foldl upsertAcct m0, x.id = k := by
  induction accounts generalizing m0 with
  | nil =>
    rcases hk with ⟨b, hb, hbk⟩ | ⟨a, ha, _⟩
    · exact ⟨b, by simpa using hb, hbk⟩
    · cases ha
  | cons a as ih =>
    rw [List.foldl_cons]
    apply ih
    have hup : ∀ j : String, (∃ b ∈ m0, b.id = j) ∨ j = a.id →
        ∃ b ∈ upsertAcct m0 a, b.id = j := by
      intro j hj
      unfold upsertAcct
      by_cases h : m0.any (fun b => decide (b.id = a.id))
      · rw [if_pos h]
        rcases hj with ⟨b, hb, hbj⟩ | hj
        · by_cases hbid : b.id = a.id
          · exact ⟨a, List.mem_map.mpr ⟨b, hb, by simp [hbid]⟩, by rw [← hbj, hbid]⟩
          · exact ⟨b, List.mem_map.mpr ⟨b, hb, by simp [hbid]⟩, hbj⟩
        · simp only [List.any_eq_true, decide_eq_true_eq] at h
          rcases h with ⟨b, hb, hbid⟩
          exact ⟨a, List.mem_map.mpr ⟨b, hb, by simp [hbid]⟩, hj.symm⟩
      · rw [if_neg h]
        rcases hj with ⟨b, hb, hbj⟩ | hj
        · exact ⟨b, List.mem_append_left _ hb, hbj⟩
        · exact ⟨a, List.mem_append_right _ (by simp), hj.symm⟩
    rcases hk with hm | ⟨x, hx, hxk⟩
    · exact Or.inl (hup k (Or.inl hm))
    · rcases List.mem_cons.mp hx with rfl | hx'
      · exact Or.inl (hup k (Or.inr hxk.symm))
      · exact Or.inr ⟨x, hx', hxk⟩

theorem dedupById_key_mem (accounts : List Account) (k : String)
    (hk : ∃ a ∈ accounts, a.id = k) :
    ∃ x ∈ dedupById accounts, x.id = k :=
  foldl_upsertAcct_key_mem accounts [] k (Or.inr hk)

theorem foldl_upsertAcct_eq_self (accounts : List Account) (m0 : List Account)
    (h : ((m0 ++ accounts).map Account.id).Nodup) :
    accounts.foldl upsertAcct m0 = m0 ++ accounts := by
  induction accounts generalizing m0 with
  | nil => simp
  | cons a as ih =>
    rw [List.foldl_cons]
    have hnotin : ¬ m0.any (fun b => decide (b.id = a.id)) = true := by
      intro hany
      rw [List.any_eq_true] at hany
      rcases hany with ⟨b, hb, hbid⟩
      rw [decide_eq_true_eq] at hbid
      rw [List.map_append, List.nodup_append] at h
      have hb' : b.id ∈ m0.map Account.id := List.mem_map.mpr ⟨b, hb, rfl⟩
      have ha' : b.id ∈ (a :: as).map Account.id := by simp [hbid]
      exact h.2.2 hb' ha'
    have hstep : upsertAcct m0 a = m0 ++ [a] := by
      unfold upsertAcct; rw [if_neg hnotin]
    rw [hstep, ih (m0 ++ [a]) (by simpa using h)]
    simp

theorem dedupById_eq_self (accounts : List Account)
    (h : (accounts.map Account.id).Nodup) : dedupById accounts = accounts := by
  have := foldl_upsertAcct_eq_self accounts [] (by simpa using h)
  simpa [dedupById] using this

/-! ### Main characterization of `getAccountBalances` -/

theorem foldl_stepAt_add (k : String) (g : Line → ℚ) (lines : List Line)
    (a : Account) (q : ℚ) :
    lines.foldl (stepAt Line.accountId k (fun l (v : Account × ℚ) => (v.1, v.2 + g l))) (a, q)
      = (a, q + sumIf k g lines) := by
  induction lines generalizing q with
  | nil => simp [sumIf]
  | cons l ls ih =>
    rw [List.foldl_cons]
    by_cases h : l.accountId = k
    · rw [show stepAt Line.accountId k (fun l (v : Account × ℚ) => (v.1, v.2 + g l)) (a, q) l
          = (a, q + g l) by simp [stepAt, h]]
      rw [ih]
      simp [sumIf, h, add_assoc]
    · rw [show stepAt Line.accountId k (fun l (v : Account × ℚ) => (v.1, v.2 + g l)) (a, q) l
          = (a, q) by simp [stepAt, h]]
      rw [ih]
      simp [sumIf, h]

theorem getAccountBalances_eq (accounts : List Account) (lines : List Line) :
    getAccountBalances accounts lines
      = (dedupById accounts).map (fun a =>
          { account := a, computed := rawSum a.id lines,
            balance := if a.normal = Side.Credit then -(rawSum a.id lines)
                       else rawSum a.id lines : BalRec }) := by
  unfold getAccountBalances
  rw [buildKeyed_eq,
    foldl_bumpKey Line.accountId (fun l (v : Account × ℚ) => (v.1, v.2 + (l.debit - l.credit))),
    List.map_map, List.map_map]
  apply List.map_congr_left
  intro a _
  have h := foldl_stepAt_add a.id (fun l => l.debit - l.credit) lines a 0
  simp only [Function.comp]
  rw [h]
  simp [rawSum]

/-! ### `pdfGetBalance` characterization -/

theorem foldl_add_filter (g : Line → ℚ) (p : Line → Bool) (lines : List Line) (c : ℚ) :
    (lines.filter p).foldl (fun s l => s + g l) c
      = c + ((lines.filter p).map g).sum := by
  generalize lines.filter p = ls
  induction ls generalizing c with
  | nil => simp
  | cons l ls ih => rw [List.foldl_cons, ih]; simp [add_assoc]

theorem sum_map_filter_eq_sumIf (k : String) (g : Line → ℚ) (lines : List Line) :
    ((lines.filter (fun l => decide (l.accountId = k))).map g).sum = sumIf k g lines := by
  induction lines with
  | nil => simp [sumIf]
  | cons l ls ih =>
    unfold sumIf at ih ⊢
    by_cases h : l.accountId = k
    · rw [List.filter_cons_of_pos (by simpa using h), List.map_cons, List.sum_cons, ih,
        List.map_cons, List.sum_cons, if_pos h]
    · rw [List.filter_cons_of_neg (by simpa using h), ih, List.map_cons, List.sum_cons,
        if_neg h, zero_add]

theorem pdfGetBalance_eq (account : Account) (lines : List Line) :
    pdfGetBalance account lines
      = if account.normal = Side.Credit then -(rawSum account.id lines)
        else rawSum account.id lines := by
  simp only [pdfGetBalance]
  rw [foldl_add_filter, sum_map_filter_eq_sumIf]
  simp [rawSum]

theorem list_any_map {β γ : Type} (f : β → γ) (l : List β) (p : γ → Bool) :
    (l.map f).any p = l.any (fun x => p (f x)) := by
  induction l with
  | nil => rfl
  | cons b bs ih => simp [List.any_cons, ih]

theorem rawSum_map_flipLine (k : String) (lines : List Line) :
    rawSum k (lines.map flipLine) = -(rawSum k lines) := by
  unfold rawSum sumIf
  induction lines with
  | nil => simp
  | cons l ls ih =>
    simp only [List.map_cons, List.sum_cons, ih]
    by_cases h : l.accountId = k
    · simp [flipLine, h]; ring
    · simp [flipLine, h]

theorem foldl_upsertAcct_map_of_id (f : Account → Account) (hf : ∀ a, (f a).id = a.id)
    (accounts : List Account) (m0 : List Account) :
    (accounts.map f).foldl upsertAcct (m0.map f) = (accounts.foldl upsertAcct m0).map f := by
  induction accounts generalizing m0 with
  | nil => simp
  | cons a as ih =>
    rw [List.map_cons, List.foldl_cons, List.foldl_cons]
    have hstep : upsertAcct (m0.map f) (f a) = (upsertAcct m0 a).map f := by
      unfold upsertAcct
      have hany : (m0.map f).any (fun b => decide (b.id = (f a).id))
          = m0.any (fun b => decide (b.id = a.id)) := by
        rw [list_any_map]
        congr 1
        funext b
        simp [hf]
      rw [hany]
      by_cases h : m0.any (fun b => decide (b.id = a.id)) = true
      · rw [if_pos h, if_pos h, List.map_map, List.map_map]
        apply List.map_congr_left
        intro b _
        simp only [Function.comp_apply]
        by_cases hb : b.id = a.id
        · rw [if_pos hb, if_pos (by rw [hf, hf, hb])]
        · rw [if_neg hb, if_neg (by rw [hf, hf]; exact hb)]
      · rw [if_neg h, if_neg h, List.map_append]
        rfl
    rw [hstep, ih]

theorem dedupById_map_of_id (f : Account → Account) (hf : ∀ a, (f a).id = a.id)
    (accounts : List Account) :
    dedupById (accounts.map f) = (dedupById accounts).map f := by
  have h := foldl_upsertAcct_map_of_id f hf accounts []
  simpa [dedupById] using h

/-- C3 supporting fact: the flip of the flip structure at the record level. -/
theorem getAccountBalances_flip (accounts : List Account) (lines : List Line) :
    (getAccountBalances (accounts.map flipAccount) (lines.map flipLine)).map BalRec.balance
      = (getAccountBalances accounts lines).map BalRec.balance := by
  rw [getAccountBalances_eq, getAccountBalances_eq,
    dedupById_map_of_id flipAccount (fun a => rfl), List.map_map, List.map_map, List.map_map]
  apply List.map_congr_left
  intro a _
  simp only [Function.comp_apply]
  rw [show (flipAccount a).id = a.id from rfl, rawSum_map_flipLine]
  cases h : a.normal with
  | Debit => simp [flipAccount, flipSide, h]
  | Credit => simp [flipAccount, flipSide, h]

/-- C3: in both balance computations (DB.getAccountBalances and
PDFReport._getBalance) the display balance is Σdebit − Σcredit over the
account's lines for a debit-normal account and its negation for a
credit-normal account, and simultaneously swapping every line's debit and
credit and flipping every account's normal side leaves every display balance
unchanged. -/
theorem claim_C3_sign_rule_and_flip_invariance :
    (∀ (accounts : List Account) (lines : List Line),
      ∀ r ∈ getAccountBalances accounts lines,
        r.balance = if r.account.normal = Side.Debit then rawSum r.account.id lines
                    else -(rawSum r.account.id lines))
    ∧ (∀ (accounts : List Account) (lines : List Line),
        (getAccountBalances (accounts.map flipAccount) (lines.map flipLine)).map BalRec.balance
          = (getAccountBalances accounts lines).map BalRec.balance)
    ∧ (∀ (a : Account) (lines : List Line),
        pdfGetBalance (flipAccount a) (lines.map flipLine) = pdfGetBalance a lines) := by
  refine ⟨?_, getAccountBalances_flip, ?_⟩
  · intro accounts lines r hr
    rw [getAccountBalances_eq] at hr
    rcases List.mem_map.mp hr with ⟨a, _, rfl⟩
    cases h : a.normal with
    | Debit => simp [h]
    | Credit => simp [h]
  · intro a lines
    rw [pdfGetBalance_eq, pdfGetBalance_eq,
      show (flipAccount a).id = a.id from rfl, rawSum_map_flipLine]
    cases h : a.normal with
    | Debit => simp [flipAccount, flipSide, h]
    | Credit => simp [flipAccount, flipSide, h]

/-- Witness for C3 at a concrete one-account, one-line ledger. -/
theorem claim_C3_witness :
    (⟨⟨"acc_1000", "1000", "Cash", AcctType.Asset, Side.Debit⟩, 75, 75⟩ : BalRec)
        ∈ getAccountBalances
            [⟨"acc_1000", "1000", "Cash", AcctType.Asset, Side.Debit⟩]
            [⟨"jl1", "je1", "acc_1000", "", 75, 0, 1⟩]
    ∧ (⟨⟨"acc_1000", "1000", "Cash", AcctType.Asset, Side.Debit⟩, 75, 75⟩ : BalRec).balance
        = if (⟨"acc_1000", "1000", "Cash", AcctType.Asset, Side.Debit⟩ : Account).normal
              = Side.Debit
          then rawSum "acc_1000" [⟨"jl1", "je1", "acc_1000", "", 75, 0, 1⟩]
          else -(rawSum "acc_1000" [⟨"jl1", "je1", "acc_1000", "", 75, 0, 1⟩]) := by
  have hmem : (⟨⟨"acc_1000", "1000", "Cash", AcctType.Asset, Side.Debit⟩, 75, 75⟩ : BalRec)
      ∈ getAccountBalances
          [⟨"acc_1000", "1000", "Cash", AcctType.Asset, Side.Debit⟩]
          [⟨"jl1", "je1", "acc_1000", "", 75, 0, 1⟩] := by
    rw [show getAccountBalances
        [⟨"acc_1000", "1000", "Cash", AcctType.Asset, Side.Debit⟩]
        [⟨"jl1", "je1", "acc_1000", "", 75, 0, 1⟩]
      = [⟨⟨"acc_1000", "1000", "Cash", AcctType.Asset, Side.Debit⟩, 75, 75⟩] from by
        norm_num +decide [getAccountBalances, buildKeyed, upsertKey, bumpKey]]
    exact List.mem_singleton.mpr rfl
  exact ⟨hmem, claim_C3_sign_rule_and_flip_invariance.1
    [⟨"acc_1000", "1000", "Cash", AcctType.Asset, Side.Debit⟩]
    [⟨"jl1", "je1", "acc_1000", "", 75, 0, 1⟩] _ hmem⟩

/-- C10 counterexample: on an account list in which two accounts share an id
(the claim quantifies over every account list), `getAccountBalances` returns a
single record — the first account is dropped, not returned unchanged. -/
theorem claim_C10_counterexample :
    (getAccountBalances
        [⟨"a", "1000", "Cash", AcctType.Asset, Side.Debit⟩,
         ⟨"a", "2000", "Accounts Payable", AcctType.Liability, Side.Credit⟩]
        []).length = 1 ∧ (1 : ℕ) ≠ 2 := by
  constructor
  · norm_num +decide [getAccountBalances, buildKeyed, upsertKey, bumpKey]
  · decide

/-- C10 (amended): for account lists whose ids are pairwise distinct — which
the store guarantees, since both backends upsert by id — `getAccountBalances`
returns exactly one record per input account, in order, with all account
fields unchanged and the balance derived; an account with no referencing lines
gets balance 0. -/
theorem claim_C10_per_account_record (accounts : List Account) (lines : List Line)
    (h : (accounts.map Account.id).Nodup) :
    getAccountBalances accounts lines
      = accounts.map (fun a =>
          { account := a, computed := rawSum a.id lines,
            balance := if a.normal = Side.Credit then -(rawSum a.id lines)
                       else rawSum a.id lines : BalRec })
    ∧ ∀ a ∈ accounts, (∀ l ∈ lines, l.accountId ≠ a.id) →
        ∀ r ∈ getAccountBalances accounts lines, r.account = a → r.balance = 0 := by
  have hmain : getAccountBalances accounts lines
      = accounts.map (fun a =>
          { account := a, computed := rawSum a.id lines,
            balance := if a.normal = Side.Credit then -(rawSum a.id lines)
                       else rawSum a.id lines : BalRec }) := by
    rw [getAccountBalances_eq, dedupById_eq_self accounts h]
  refine ⟨hmain, ?_⟩
  intro a _ hnoline r hr hra
  rw [hmain] at hr
  rcases List.mem_map.mp hr with ⟨b, _, rfl⟩
  have hba : b = a := hra
  have hzero : rawSum b.id lines = 0 := by
    unfold rawSum sumIf
    apply List.sum_eq_zero
    intro x hx
    rcases List.mem_map.mp hx with ⟨l, hl, rfl⟩
    rw [if_neg (by rw [hba]; exact hnoline l hl)]
  simp [hzero]

/-- Witness for C10 at a concrete two-account ledger where one account has no
referencing lines. -/
theorem claim_C10_witness :
    (([⟨"a", "1000", "Cash", AcctType.Asset, Side.Debit⟩,
       ⟨"b", "4000", "Sales", AcctType.Revenue, Side.Credit⟩] :
        List Account).map Account.id).Nodup
    ∧ getAccountBalances
        [⟨"a", "1000", "Cash", AcctType.Asset, Side.Debit⟩,
         ⟨"b", "4000", "Sales", AcctType.Revenue, Side.Credit⟩]
        [⟨"jl1", "je1", "a", "", 20, 0, 1⟩]
      = [⟨"a", "1000", "Cash", AcctType.Asset, Side.Debit⟩,
         ⟨"b", "4000", "Sales", AcctType.Revenue, Side.Credit⟩].map (fun a =>
          { account := a, computed := rawSum a.id [⟨"jl1", "je1", "a", "", 20, 0, 1⟩],
            balance := if a.normal = Side.Credit
                       then -(rawSum a.id [⟨"jl1", "je1", "a", "", 20, 0, 1⟩])
                       else rawSum a.id [⟨"jl1", "je1", "a", "", 20, 0, 1⟩] : BalRec }) :=
  ⟨by decide,
    (claim_C10_per_account_record
      [⟨"a", "1000", "Cash", AcctType.Asset, Side.Debit⟩,
       ⟨"b", "4000", "Sales", AcctType.Revenue, Side.Credit⟩]
      [⟨"jl1", "je1", "a", "", 20, 0, 1⟩] (by decide)).1⟩

theorem nanAdd_isSome {a b : Option ℚ} (ha : a.isSome) (hb : b.isSome) :
    (nanAdd a b).isSome := by
  rcases Option.isSome_iff_exists.mp ha with ⟨x, rfl⟩
  rcases Option.isSome_iff_exists.mp hb with ⟨y, rfl⟩
  rfl

theorem nanSub_isSome {a b : Option ℚ} (ha : a.isSome) (hb : b.isSome) :
    (nanSub a b).isSome := by
  rcases Option.isSome_iff_exists.mp ha with ⟨x, rfl⟩
  rcases Option.isSome_iff_exists.mp hb with ⟨y, rfl⟩
  rfl

theorem nanNeg_isSome {a : Option ℚ} (ha : a.isSome) : (nanNeg a).isSome := by
  rcases Option.isSome_iff_exists.mp ha with ⟨x, rfl⟩
  rfl

theorem foldl_js_fst_isSome (k : String) (ls : List LineJS)
    (hben : ∀ l ∈ ls, (lineContribution l.debit l.credit).isSome) :
    ∀ (a : Account) (v : Option ℚ), v.isSome →
      (ls.foldl
        (stepAt LineJS.accountId k
          (fun l (v : Account × Option ℚ) => (v.1, nanAdd v.2 (lineContribution l.debit l.credit))))
        (a, v)).1 = a
      ∧ (ls.foldl
        (stepAt LineJS.accountId k
          (fun l (v : Account × Option ℚ) => (v.1, nanAdd v.2 (lineContribution l.debit l.credit))))
        (a, v)).2.isSome := by
  induction ls with
  | nil => intro a v hv; exact ⟨rfl, hv⟩
  | cons l ls ih =>
    intro a v hv
    have hben' : ∀ x ∈ ls, (lineContribution x.debit x.credit).isSome :=
      fun x hx => hben x (List.mem_cons_of_mem l hx)
    rw [List.foldl_cons]
    by_cases h : l.accountId = k
    · rw [show stepAt LineJS.accountId k
          (fun l (v : Account × Option ℚ) => (v.1, nanAdd v.2 (lineContribution l.debit l.credit)))
          (a, v) l = (a, nanAdd v (lineContribution l.debit l.credit)) from if_pos h]
      exact ih hben' a _ (nanAdd_isSome hv (hben l (List.mem_cons_self l ls)))
    · rw [show stepAt LineJS.accountId k
          (fun l (v : Account × Option ℚ) => (v.1, nanAdd v.2 (lineContribution l.debit l.credit)))
          (a, v) l = (a, v) from if_neg h]
      exact ih hben' a v hv

theorem foldl_stepAt_skip {α : Type} (k : String) (step : LineJS → α → α)
    (P : LineJS → Bool) (lines : List LineJS)
    (h : ∀ l ∈ lines, P l = false → l.accountId ≠ k) (v : α) :
    (lines.filter P).foldl (stepAt LineJS.accountId k step) v
      = lines.foldl (stepAt LineJS.accountId k step) v := by
  induction lines generalizing v with
  | nil => simp
  | cons l ls ih =>
    by_cases hP : P l = true
    · rw [List.filter_cons_of_pos hP, List.foldl_cons, List.foldl_cons]
      exact ih (fun x hx => h x (List.mem_cons_of_mem l hx)) _
    · have hP' : P l = false := by
        cases hPl : P l
        · rfl
        · exact absurd hPl hP
      rw [List.filter_cons_of_neg (by simp [hP']), List.foldl_cons]
      rw [show stepAt LineJS.accountId k step v l = v
          from if_neg (h l (List.mem_cons_self l ls) hP')]
      exact ih (fun x hx => h x (List.mem_cons_of_mem l hx)) v

/-- C5 counterexample: a line whose `debit` field is the truthy non-numeric
string `'abc'` does not contribute 0 — `('abc' || 0) - (0 || 0)` is NaN
(modelled as `none`), so the account's computed balance is NaN rather than a
well-defined number. -/
theorem claim_C5_counterexample :
    (getAccountBalancesJs
        [⟨"a", "1000", "Cash", AcctType.Asset, Side.Debit⟩]
        [⟨"a", JSVal.str "abc", JSVal.num 0⟩]).map BalRecJs.balance = [none]
    ∧ (none : Option ℚ) ≠ some 0 := by
  constructor
  · decide
  · decide

/-- C5 (amended): the balance computation is total and never throws; lines
whose accountId matches no account are silently ignored; a `debit`/`credit`
field that is missing or otherwise falsy (undefined, null, empty string,
false, 0) contributes 0; and the result is a well-defined number for every
account provided every line field coerces to a number (is a number, a falsy
value, a boolean, or a numeric string) — a truthy non-numeric string instead
poisons its account's balance to NaN. -/
theorem claim_C5_never_throws_coercions (accounts : List Account) (lines : List LineJS) :
    (getAccountBalancesJs accounts
        (lines.filter (fun l => accounts.any (fun a => decide (a.id = l.accountId))))
      = getAccountBalancesJs accounts lines)
    ∧ (∀ v : JSVal, v.truthy = false → (jsOrZero v).toNumber = some 0)
    ∧ ((∀ l ∈ lines, ((jsOrZero l.debit).toNumber).isSome
          ∧ ((jsOrZero l.credit).toNumber).isSome) →
        ∀ r ∈ getAccountBalancesJs accounts lines, r.computed.isSome ∧ r.balance.isSome) := by
  refine ⟨?_, ?_, ?_⟩
  · unfold getAccountBalancesJs
    simp only [buildKeyed_eq,
      foldl_bumpKey LineJS.accountId
        (fun l (v : Account × Option ℚ) => (v.1, nanAdd v.2 (lineContribution l.debit l.credit))),
      List.map_map]
    apply List.map_congr_left
    intro a ha
    simp only [Function.comp_apply]
    rw [foldl_stepAt_skip]
    intro l _ hPl hk
    have hmem : a ∈ accounts := dedupById_subset accounts a ha
    have : accounts.any (fun b => decide (b.id = l.accountId)) = true :=
      List.any_eq_true.mpr ⟨a, hmem, by simpa using hk.symm⟩
    rw [hPl] at this
    exact Bool.false_ne_true this
  · intro v hv
    rw [show jsOrZero v = JSVal.num 0 from if_neg (by simp [hv])]
    rfl
  · intro hben r hr
    unfold getAccountBalancesJs at hr
    simp only [buildKeyed_eq,
      foldl_bumpKey LineJS.accountId
        (fun l (v : Account × Option ℚ) => (v.1, nanAdd v.2 (lineContribution l.debit l.credit))),
      List.map_map] at hr
    rcases List.mem_map.mp hr with ⟨a, _, rfl⟩
    have hben' : ∀ l ∈ lines, (lineContribution l.debit l.credit).isSome := by
      intro l hl
      exact nanSub_isSome (hben l hl).1 (hben l hl).2
    have h := foldl_js_fst_isSome a.id lines hben' a (some 0) rfl
    refine ⟨h.2, ?_⟩
    simp only [Function.comp_apply]
    split
    · exact nanNeg_isSome h.2
    · exact h.2

/-- Witness for C5 at a concrete ledger with one numeric line. -/
theorem claim_C5_witness :
    (∀ l ∈ ([⟨"a", JSVal.num 5, JSVal.undef⟩] : List LineJS),
        ((jsOrZero l.debit).toNumber).isSome ∧ ((jsOrZero l.credit).toNumber).isSome)
    ∧ (∀ r ∈ getAccountBalancesJs
          [⟨"a", "1000", "Cash", AcctType.Asset, Side.Debit⟩]
          [⟨"a", JSVal.num 5, JSVal.undef⟩],
        r.computed.isSome ∧ r.balance.isSome) :=
  ⟨by decide,
    (claim_C5_never_throws_coercions
      [⟨"a", "1000", "Cash", AcctType.Asset, Side.Debit⟩]
      [⟨"a", JSVal.num 5, JSVal.undef⟩]).2.2 (by decide)⟩

theorem sum_enum_map {β : Type} (f : β → ℚ) (ls : List β) :
    (ls.enum.map (fun p => f p.2)).sum = (ls.map f).sum := by
  rw [show (fun p : ℕ × β => f p.2) = f ∘ Prod.snd from rfl, ← List.map_map,
    List.enum_map_snd]

theorem pfOrZero_of_not_pos (v : JSVal) (hv : pfPos v = false) (hnn : 0 ≤ pfOrZero v) :
    pfOrZero v = 0 := by
  unfold pfPos at hv
  unfold pfOrZero at hnn ⊢
  cases h : jsParseFloat v with
  | none => rfl
  | some q =>
    rw [h] at hv hnn
    simp only [Option.getD_some] at hnn
    simp at hv
    simp only [Option.getD_some]
    exact le_antisymm hv hnn

theorem sum_filter_split {β : Type} (p : β → Bool) (f : β → ℚ) (ls : List β) :
    (ls.map f).sum
      = ((ls.filter p).map f).sum + ((ls.filter (fun x => !(p x))).map f).sum := by
  induction ls with
  | nil => simp
  | cons x xs ih =>
    by_cases h : p x = true
    · rw [List.map_cons, List.sum_cons, ih, List.filter_cons_of_pos h,
        List.filter_cons_of_neg (by simp [h]), List.map_cons, List.sum_cons]
      ring
    · rw [List.map_cons, List.sum_cons, ih, List.filter_cons_of_neg (by simp [h]),
        List.filter_cons_of_pos (by simp [h]), List.map_cons, List.sum_cons]
      ring

theorem enum_mk_debit_sum (ls : List DraftLine) :
    ((ls.enum.map (fun p =>
        { accountId := p.2.accountId, description := p.2.description,
          debit := pfOrZero p.2.debit, credit := pfOrZero p.2.credit,
          seq := p.1 + 1 : PostedLine })).map PostedLine.debit).sum
      = (ls.map (fun l => pfOrZero l.debit)).sum := by
  rw [List.map_map]
  exact sum_enum_map (fun l => pfOrZero l.debit) ls

theorem enum_mk_credit_sum (ls : List DraftLine) :
    ((ls.enum.map (fun p =>
        { accountId := p.2.accountId, description := p.2.description,
          debit := pfOrZero p.2.debit, credit := pfOrZero p.2.credit,
          seq := p.1 + 1 : PostedLine })).map PostedLine.credit).sum
      = (ls.map (fun l => pfOrZero l.credit)).sum := by
  rw [List.map_map]
  exact sum_enum_map (fun l => pfOrZero l.credit) ls

/-- C2 counterexample: a draft whose third line carries a 50 credit but no
selected account.  The balance check runs over all three lines (100 = 100) so
the entry is committed, but only the two valid lines are persisted, and over
those |Σdebit − Σcredit| = 50, far above the tolerance. -/
theorem claim_C2_counterexample :
    postJournalEntry "2024-01-01" "x"
        [⟨"a", "", JSVal.str "100", JSVal.str ""⟩,
         ⟨"b", "", JSVal.str "", JSVal.str "50"⟩,
         ⟨"", "", JSVal.str "", JSVal.str "50"⟩]
      = Except.ok [⟨"a", "", 100, 0, 1⟩, ⟨"b", "", 0, 50, 2⟩]
    ∧ ¬(|((([⟨"a", "", 100, 0, 1⟩, ⟨"b", "", 0, 50, 2⟩] : List PostedLine).map
            PostedLine.debit).sum
        - (([⟨"a", "", 100, 0, 1⟩, ⟨"b", "", 0, 50, 2⟩] : List PostedLine).map
            PostedLine.credit).sum)| < 1/1000) := by
  have h100 : natFromDigits ['1', '0', '0'] = 100 := by decide
  have h50 : natFromDigits ['5', '0'] = 50 := by decide
  have h0 : natFromDigits ([] : List Char) = 0 := by decide
  constructor
  · norm_num +decide [postJournalEntry, draftTotalDr, draftTotalCr, validDraftLines,
      pfOrZero, pfPos, jsParseFloat, parseFloatChars, numFromParts, h100, h50, h0,
      List.enum, List.enumFrom]
  · norm_num

/-- C2 (amended): the posting operation rejects the draft whenever
`|Σdebit − Σcredit| > 0.001` over the full draft line list, whenever that
total debit is zero, or whenever fewer than 2 lines have an account and a
positive amount; every committed draft satisfies
`|Σdebit − Σcredit| ≤ 0.001` (non-strict at the boundary) over the full
draft list; what is persisted are exactly the valid lines, and their sums
satisfy the same bound provided amounts are non-negative and every line with
a positive amount has an account selected — a line carrying an amount but no
account is silently dropped and can leave the persisted lines unbalanced. -/
theorem claim_C2_posting_validation (date desc : String) (journalLines : List DraftLine) :
    ((|draftTotalDr journalLines - draftTotalCr journalLines| > 1/1000
        ∨ draftTotalDr journalLines = 0
        ∨ (validDraftLines journalLines).length < 2) →
      ∃ msg, postJournalEntry date desc journalLines = Except.error msg)
    ∧ (∀ posted, postJournalEntry date desc journalLines = Except.ok posted →
        |draftTotalDr journalLines - draftTotalCr journalLines| ≤ 1/1000
        ∧ posted = (validDraftLines journalLines).enum.map (fun p =>
            { accountId := p.2.accountId, description := p.2.description,
              debit := pfOrZero p.2.debit, credit := pfOrZero p.2.credit,
              seq := p.1 + 1 : PostedLine })
        ∧ ((∀ l ∈ journalLines, 0 ≤ pfOrZero l.debit ∧ 0 ≤ pfOrZero l.credit) →
          (∀ l ∈ journalLines, (pfPos l.debit || pfPos l.credit) = true → l.accountId ≠ "") →
          |(posted.map PostedLine.debit).sum - (posted.map PostedLine.credit).sum|
            ≤ 1/1000)) := by
  by_cases h1 : date = "" ∨ desc = ""
  · refine ⟨fun _ => ⟨"Please fill in date and description", ?_⟩, fun posted hok => ?_⟩
    · unfold postJournalEntry; rw [if_pos h1]
    · unfold postJournalEntry at hok; rw [if_pos h1] at hok; cases hok
  · by_cases h2 : |draftTotalDr journalLines - draftTotalCr journalLines| > 1/1000
    · refine ⟨fun _ => ⟨"Entry not balanced! Debits must equal Credits", ?_⟩,
        fun posted hok => ?_⟩
      · unfold postJournalEntry; rw [if_neg h1, if_pos h2]
      · unfold postJournalEntry at hok; rw [if_neg h1, if_pos h2] at hok; cases hok
    · by_cases h3 : draftTotalDr journalLines = 0
      · refine ⟨fun _ => ⟨"Entry has no amounts", ?_⟩, fun posted hok => ?_⟩
        · unfold postJournalEntry; rw [if_neg h1, if_neg h2, if_pos h3]
        · unfold postJournalEntry at hok
          rw [if_neg h1, if_neg h2, if_pos h3] at hok; cases hok
      · by_cases h4 : (validDraftLines journalLines).length < 2
        · refine ⟨fun _ => ⟨"At least 2 lines with accounts and amounts required", ?_⟩,
            fun posted hok => ?_⟩
          · unfold postJournalEntry; rw [if_neg h1, if_neg h2, if_neg h3, if_pos h4]
          · unfold postJournalEntry at hok
            rw [if_neg h1, if_neg h2, if_neg h3, if_pos h4] at hok; cases hok
        · refine ⟨fun hcond => ?_, fun posted hok => ?_⟩
          · rcases hcond with hc | hc | hc
            · exact absurd hc h2
            · exact absurd hc h3
            · exact absurd hc h4
          · unfold postJournalEntry at hok
            rw [if_neg h1, if_neg h2, if_neg h3, if_neg h4] at hok
            injection hok with hpost
            refine ⟨not_lt.mp h2, hpost.symm, ?_⟩
            intro hnn hacct
            have hinvalid : ∀ l ∈ journalLines.filter (fun l =>
                !(decide (l.accountId ≠ "") && (pfPos l.debit || pfPos l.credit))),
                pfOrZero l.debit = 0 ∧ pfOrZero l.credit = 0 := by
              intro l hl
              have hmem : l ∈ journalLines := List.mem_of_mem_filter hl
              have hcond := List.of_mem_filter hl
              simp only [Bool.not_eq_eq_eq_not, Bool.not_true, Bool.and_eq_false_iff] at hcond
              have hpos : (pfPos l.debit || pfPos l.credit) = false := by
                rcases hcond with hcid | hp
                · by_cases hp2 : (pfPos l.debit || pfPos l.credit) = true
                  · exact absurd (hacct l hmem hp2) (by simpa using hcid)
                  · exact Bool.eq_false_iff.mpr hp2
                · exact hp
              rw [Bool.or_eq_false_iff] at hpos
              exact ⟨pfOrZero_of_not_pos l.debit hpos.1 (hnn l hmem).1,
                pfOrZero_of_not_pos l.credit hpos.2 (hnn l hmem).2⟩
            have hsum : ∀ (g : DraftLine → ℚ),
                (∀ l ∈ journalLines.filter (fun l =>
                  !(decide (l.accountId ≠ "") && (pfPos l.debit || pfPos l.credit))), g l = 0) →
                ((validDraftLines journalLines).map g).sum = (journalLines.map g).sum := by
              intro g hz
              rw [sum_filter_split (fun l =>
                decide (l.accountId ≠ "") && (pfPos l.debit || pfPos l.credit)) g journalLines]
              rw [show ((journalLines.filter (fun l =>
                  !(decide (l.accountId ≠ "") && (pfPos l.debit || pfPos l.credit)))).map g).sum
                = 0 from List.sum_eq_zero (by
                  intro x hx
                  rcases List.mem_map.mp hx with ⟨l, hl, rfl⟩
                  exact hz l hl)]
              rw [add_zero]
              rfl
            rw [hpost.symm, enum_mk_debit_sum, enum_mk_credit_sum]
            rw [hsum (fun l => pfOrZero l.debit) (fun l hl => (hinvalid l hl).1),
              hsum (fun l => pfOrZero l.credit) (fun l hl => (hinvalid l hl).2)]
            exact not_lt.mp h2

/-- Witness for C2 at a concrete committed draft. -/
theorem claim_C2_witness :
    postJournalEntry "2024-01-01" "Sale"
        [⟨"a", "", JSVal.str "100", JSVal.str ""⟩,
         ⟨"b", "", JSVal.str "", JSVal.str "100"⟩]
      = Except.ok [⟨"a", "", 100, 0, 1⟩, ⟨"b", "", 0, 100, 2⟩]
    ∧ |draftTotalDr
          [⟨"a", "", JSVal.str "100", JSVal.str ""⟩,
           ⟨"b", "", JSVal.str "", JSVal.str "100"⟩]
        - draftTotalCr
          [⟨"a", "", JSVal.str "100", JSVal.str ""⟩,
           ⟨"b", "", JSVal.str "", JSVal.str "100"⟩]| ≤ 1/1000 := by
  have h100 : natFromDigits ['1', '0', '0'] = 100 := by decide
  have h0 : natFromDigits ([] : List Char) = 0 := by decide
  have hok : postJournalEntry "2024-01-01" "Sale"
      [⟨"a", "", JSVal.str "100", JSVal.str ""⟩,
       ⟨"b", "", JSVal.str "", JSVal.str "100"⟩]
      = Except.ok [⟨"a", "", 100, 0, 1⟩, ⟨"b", "", 0, 100, 2⟩] := by
    norm_num +decide [postJournalEntry, draftTotalDr, draftTotalCr, validDraftLines,
      pfOrZero, pfPos, jsParseFloat, parseFloatChars, numFromParts, h100, h0,
      List.enum, List.enumFrom]
  exact ⟨hok, ((claim_C2_posting_validation "2024-01-01" "Sale"
    [⟨"a", "", JSVal.str "100", JSVal.str ""⟩,
     ⟨"b", "", JSVal.str "", JSVal.str "100"⟩]).2
    [⟨"a", "", 100, 0, 1⟩, ⟨"b", "", 0, 100, 2⟩] hok).1⟩

theorem balancesAccounts_eq (accounts : List Account) (lines : List Line) :
    balancesAccounts accounts lines = dedupById accounts := by
  unfold balancesAccounts
  rw [getAccountBalances_eq, List.map_map]
  exact (List.map_congr_left (fun a _ => rfl)).trans (List.map_id _)

/-! ### Summation helper lemmas -/

theorem sum_insertionSort_map {β : Type} (r : β → β → Prop) [DecidableRel r]
    (xs : List β) (f : β → ℚ) :
    ((List.insertionSort r xs).map f).sum = (xs.map f).sum :=
  ((List.perm_insertionSort r xs).map f).sum_eq

theorem sum_map_sub_distrib {β : Type} (f g : β → ℚ) (ls : List β) :
    (ls.map (fun x => f x - g x)).sum = (ls.map f).sum - (ls.map g).sum := by
  induction ls with
  | nil => simp
  | cons x xs ih => simp [ih]; ring

theorem sum_map_add_distrib {β : Type} (f g : β → ℚ) (ls : List β) :
    (ls.map (fun x => f x + g x)).sum = (ls.map f).sum + (ls.map g).sum := by
  induction ls with
  | nil => simp
  | cons x xs ih => simp [ih]; ring

theorem sum_map_filter_general {β : Type} (p : β → Bool) (f : β → ℚ) (ls : List β) :
    ((ls.filter p).map f).sum = (ls.map (fun x => if p x = true then f x else 0)).sum := by
  induction ls with
  | nil => simp
  | cons x xs ih =>
    by_cases h : p x = true
    · rw [List.filter_cons_of_pos h, List.map_cons, List.sum_cons, ih,
        List.map_cons, List.sum_cons, if_pos h]
    · rw [List.filter_cons_of_neg (by simp [h]), ih, List.map_cons, List.sum_cons,
        if_neg h, zero_add]

theorem nodup_sum_ite (as : List Account) (hnd : (as.map Account.id).Nodup)
    (k : String) (x : ℚ) :
    (as.map (fun a => if a.id = k then x else 0)).sum
      = if as.any (fun a => decide (a.id = k)) = true then x else 0 := by
  induction as with
  | nil => simp
  | cons a as ih =>
    rw [List.map_cons] at hnd
    rcases List.nodup_cons.mp hnd with ⟨hnotin, hnd'⟩
    rw [List.map_cons, List.sum_cons, ih hnd', List.any_cons]
    by_cases h : a.id = k
    · have hzero : as.any (fun b => decide (b.id = k)) = false := by
        rw [List.any_eq_false]
        intro b hb
        simp only [decide_eq_true_eq]
        intro hbk
        exact hnotin (List.mem_map.mpr ⟨b, hb, by rw [hbk, h]⟩)
      rw [if_pos h, hzero]
      simp [h]
    · rw [if_neg h]
      have hdec : decide (a.id = k) = false := by simp [h]
      rw [hdec]
      simp

theorem sum_sumIf_eq (as : List Account) (hnd : (as.map Account.id).Nodup)
    (g : Line → ℚ) (lines : List Line) :
    (as.map (fun a => sumIf a.id g lines)).sum
      = (lines.map (fun l =>
          if as.any (fun a => decide (a.id = l.accountId)) = true then g l else 0)).sum := by
  induction lines with
  | nil => simp [sumIf]
  | cons l ls ih =>
    have hsplit : ∀ a : Account, sumIf a.id g (l :: ls)
        = (if a.id = l.accountId then g l else 0) + sumIf a.id g ls := by
      intro a
      unfold sumIf
      rw [List.map_cons, List.sum_cons]
      by_cases h : l.accountId = a.id
      · rw [if_pos h, if_pos h.symm]
      · rw [if_neg h, if_neg (fun he => h he.symm)]
    calc (as.map (fun a => sumIf a.id g (l :: ls))).sum
        = (as.map (fun a => (if a.id = l.accountId then g l else 0) + sumIf a.id g ls)).sum := by
          exact congrArg List.sum (List.map_congr_left (fun a _ => hsplit a))
      _ = (as.map (fun a => if a.id = l.accountId then g l else 0)).sum
            + (as.map (fun a => sumIf a.id g ls)).sum :=
          sum_map_add_distrib _ _ as
      _ = (if as.any (fun a => decide (a.id = l.accountId)) = true then g l else 0)
            + (ls.map (fun x =>
                if as.any (fun a => decide (a.id = x.accountId)) = true then g x else 0)).sum := by
          rw [nodup_sum_ite as hnd, ih]
      _ = ((l :: ls).map (fun x =>
            if as.any (fun a => decide (a.id = x.accountId)) = true then g x else 0)).sum := by
          rw [List.map_cons, List.sum_cons]

theorem entriesBalanced_sum_aux : ∀ (n : ℕ) (lines : List Line), lines.length = n →
    entriesBalanced lines →
    (lines.map Line.debit).sum = (lines.map Line.credit).sum := by
  intro n
  induction n using Nat.strong_induction_on with
  | _ n ih =>
    intro lines hn h
    cases lines with
    | nil => simp
    | cons l rest =>
      set e := l.entryId with he
      have hsame : (((l :: rest).filter (fun x => decide (x.entryId = e))).map Line.debit).sum
          = (((l :: rest).filter (fun x => decide (x.entryId = e))).map Line.credit).sum :=
        h e (List.mem_map.mpr ⟨l, List.mem_cons_self l rest, rfl⟩)
      set others := (l :: rest).filter (fun x => !(decide (x.entryId = e))) with hoth
      have hlen : others.length < n := by
        rw [← hn, hoth]
        have : (l :: rest).filter (fun x => !(decide (x.entryId = e)))
            = rest.filter (fun x => !(decide (x.entryId = e))) := by
          rw [List.filter_cons_of_neg (by simp [he])]
        rw [this]
        exact Nat.lt_of_le_of_lt (List.length_filter_le _ rest) (by simp)
      have hbal : entriesBalanced others := by
        intro eid hmem
        rcases List.mem_map.mp hmem with ⟨x, hx, hxe⟩
        have hxne : x.entryId ≠ e := by
          have := List.of_mem_filter hx
          simpa using this
        have hfilter : others.filter (fun y => decide (y.entryId = eid))
            = (l :: rest).filter (fun y => decide (y.entryId = eid)) := by
          rw [hoth, List.filter_filter]
          apply List.filter_congr
          intro y _
          by_cases hy : y.entryId = eid
          · have hne : eid ≠ e := by rw [← hxe]; exact hxne
            simp [hy, hne]
          · simp [hy]
        rw [hfilter]
        exact h eid (List.mem_map.mpr ⟨x, List.mem_of_mem_filter hx, hxe⟩)
      have hrec := ih others.length hlen others rfl hbal
      have hd := sum_filter_split (fun x => decide (x.entryId = e)) Line.debit (l :: rest)
      have hc := sum_filter_split (fun x => decide (x.entryId = e)) Line.credit (l :: rest)
      rw [hd, hc, hsame, ← hoth, hrec]

theorem entriesBalanced_sum (lines : List Line) (h : entriesBalanced lines) :
    (lines.map Line.debit).sum = (lines.map Line.credit).sum :=
  entriesBalanced_sum_aux lines.length lines rfl h

theorem sum_type_split (D : List Account) (f : Account → ℚ) :
    ((D.filter (fun a => decide (a.type = AcctType.Asset))).map f).sum
      - (((D.filter (fun a => decide (a.type = AcctType.Liability))).map f).sum
        + (((D.filter (fun a => decide (a.type = AcctType.Equity))).map f).sum
          + (((D.filter (fun a => decide (a.type = AcctType.Revenue))).map f).sum
            - ((D.filter (fun a => decide (a.type = AcctType.Expense))).map f).sum)))
      = (D.map (typeSigned f)).sum := by
  induction D with
  | nil => simp
  | cons a D ih =>
    rw [List.map_cons, List.sum_cons, ← ih]
    cases ht : a.type
    all_goals {
      repeat rw [List.filter_cons]
      simp only [ht, decide_eq_true_eq, typeSigned]
      norm_num +decide [List.sum_cons]
      try ring
    }

theorem conventional_typeSigned (a : Account) (lines : List Line)
    (h : conventionalNormal a = true) :
    typeSigned (fun a => pdfGetBalance a lines) a = rawSum a.id lines := by
  cases ht : a.type
  all_goals {
    simp only [conventionalNormal, ht, decide_eq_true_eq] at h
    simp only [typeSigned, ht]
    rw [pdfGetBalance_eq]
    simp [h]
  }

/-- C1 counterexample: a ledger in which every posted entry individually
balances but an asset account is credit-normal (as the shipped chart's
Accumulated Depreciation is): the Balance Sheet is off by 200 and its
`balanced` flag is false, so individual entry balance alone does not put
`TotalAssets − (TotalLiabilities + TotalEquity)` within 0.01 of zero. -/
theorem claim_C1_counterexample :
    entriesBalanced
      [⟨"l1", "e1", "a", "", 100, 0, 1⟩, ⟨"l2", "e1", "b", "", 0, 100, 2⟩]
    ∧ (renderBalanceSheet
        [⟨"a", "1700", "Accumulated Depreciation", AcctType.Asset, Side.Credit⟩,
         ⟨"b", "1600", "Property and Equipment", AcctType.Asset, Side.Debit⟩]
        [⟨"l1", "e1", "a", "", 100, 0, 1⟩, ⟨"l2", "e1", "b", "", 0, 100, 2⟩]).totalAssets
      - ((renderBalanceSheet
        [⟨"a", "1700", "Accumulated Depreciation", AcctType.Asset, Side.Credit⟩,
         ⟨"b", "1600", "Property and Equipment", AcctType.Asset, Side.Debit⟩]
        [⟨"l1", "e1", "a", "", 100, 0, 1⟩, ⟨"l2", "e1", "b", "", 0, 100, 2⟩]).totalLiab
        + (renderBalanceSheet
        [⟨"a", "1700", "Accumulated Depreciation", AcctType.Asset, Side.Credit⟩,
         ⟨"b", "1600", "Property and Equipment", AcctType.Asset, Side.Debit⟩]
        [⟨"l1", "e1", "a", "", 100, 0, 1⟩, ⟨"l2", "e1", "b", "", 0, 100, 2⟩]).totalEquity)
      = -200
    ∧ (renderBalanceSheet
        [⟨"a", "1700", "Accumulated Depreciation", AcctType.Asset, Side.Credit⟩,
         ⟨"b", "1600", "Property and Equipment", AcctType.Asset, Side.Debit⟩]
        [⟨"l1", "e1", "a", "", 100, 0, 1⟩, ⟨"l2", "e1", "b", "", 0, 100, 2⟩]).balanced
      = false := by
  refine ⟨?_, ?_, ?_⟩
  · intro eid hmem
    simp only [List.map_cons, List.map_nil, List.mem_cons, List.not_mem_nil, or_false] at hmem
    rcases hmem with rfl | rfl
    all_goals norm_num +decide [List.filter]
  · norm_num +decide [renderBalanceSheet, balancesAccounts, getAccountBalances, buildKeyed,
      upsertKey, bumpKey, sortByCode, List.insertionSort, List.orderedInsert, pdfGetBalance]
  · norm_num +decide [renderBalanceSheet, balancesAccounts, getAccountBalances, buildKeyed,
      upsertKey, bumpKey, sortByCode, List.insertionSort, List.orderedInsert, pdfGetBalance]

/-- C1 (amended): whenever every posted entry individually balances, every
line references an existing account, and every account's normal side follows
the convention for its type (assets/expenses debit-normal; liabilities,
equity and revenue credit-normal — which the shipped chart violates for
Accumulated Depreciation and Owner's Drawings), the Balance Sheet's
`TotalAssets − (TotalLiabilities + TotalEquity)` is exactly zero and the
`balanced` flag is true; unconditionally, the flag is true exactly when
`|TotalAssets − (TotalLiabilities + TotalEquity)| < 0.01`. -/
theorem claim_C1_accounting_equation (accounts : List Account) (lines : List Line)
    (hconv : ∀ a ∈ accounts, conventionalNormal a = true)
    (hknown : ∀ l ∈ lines, ∃ a ∈ accounts, a.id = l.accountId)
    (hbal : entriesBalanced lines) :
    ((renderBalanceSheet accounts lines).totalAssets
      - ((renderBalanceSheet accounts lines).totalLiab
        + (renderBalanceSheet accounts lines).totalEquity) = 0)
    ∧ (renderBalanceSheet accounts lines).balanced = true
    ∧ (∀ (accounts' : List Account) (lines' : List Line),
        (renderBalanceSheet accounts' lines').balanced = true
          ↔ |(renderBalanceSheet accounts' lines').totalAssets
              - ((renderBalanceSheet accounts' lines').totalLiab
                + (renderBalanceSheet accounts' lines').totalEquity)| < 1/100) := by
  have hflag : ∀ (accounts' : List Account) (lines' : List Line),
      (renderBalanceSheet accounts' lines').balanced = true
        ↔ |(renderBalanceSheet accounts' lines').totalAssets
            - ((renderBalanceSheet accounts' lines').totalLiab
              + (renderBalanceSheet accounts' lines').totalEquity)| < 1/100 := by
    intro accounts' lines'
    simp only [renderBalanceSheet, decide_eq_true_eq]
  have hgap : (renderBalanceSheet accounts lines).totalAssets
      - ((renderBalanceSheet accounts lines).totalLiab
        + (renderBalanceSheet accounts lines).totalEquity) = 0 := by
    simp only [renderBalanceSheet, sortByCode, balancesAccounts_eq]
    rw [sum_insertionSort_map, sum_insertionSort_map, sum_insertionSort_map, sum_type_split]
    have hconv' : ∀ a ∈ dedupById accounts, conventionalNormal a = true :=
      fun a ha => hconv a (dedupById_subset accounts a ha)
    rw [List.map_congr_left (fun a ha => conventional_typeSigned a lines (hconv' a ha))]
    have hnd := dedupById_ids_nodup accounts
    have hsum := sum_sumIf_eq (dedupById accounts) hnd (fun l => l.debit - l.credit) lines
    rw [show (dedupById accounts).map (fun a => rawSum a.id lines)
        = (dedupById accounts).map (fun a => sumIf a.id (fun l => l.debit - l.credit) lines)
        from rfl, hsum]
    have hcov : ∀ l ∈ lines,
        ((dedupById accounts).any (fun a => decide (a.id = l.accountId))) = true := by
      intro l hl
      rcases hknown l hl with ⟨a, ha, haid⟩
      rcases dedupById_key_mem accounts l.accountId ⟨a, ha, haid⟩ with ⟨x, hx, hxid⟩
      exact List.any_eq_true.mpr ⟨x, hx, by simpa using hxid⟩
    rw [List.map_congr_left (fun l hl => if_pos (hcov l hl))]
    rw [show (lines.map fun l => l.debit - l.credit)
        = lines.map (fun l => Line.debit l - Line.credit l) from rfl,
      sum_map_sub_distrib]
    rw [show (lines.map fun l => Line.debit l) = lines.map Line.debit from rfl,
      show (lines.map fun l => Line.credit l) = lines.map Line.credit from rfl,
      entriesBalanced_sum lines hbal]
    ring
  refine ⟨hgap, ?_, hflag⟩
  rw [hflag accounts lines, hgap]
  norm_num

/-- Witness for C1 at a concrete conventional ledger: cash 500 debited,
sales revenue 500 credited. -/
theorem claim_C1_witness :
    (∀ a ∈ ([⟨"c", "1000", "Cash", AcctType.Asset, Side.Debit⟩,
             ⟨"r", "4000", "Sales Revenue", AcctType.Revenue, Side.Credit⟩] : List Account),
        conventionalNormal a = true)
    ∧ (∀ l ∈ ([⟨"l1", "e1", "c", "", 500, 0, 1⟩, ⟨"l2", "e1", "r", "", 0, 500, 2⟩] : List Line),
        ∃ a ∈ ([⟨"c", "1000", "Cash", AcctType.Asset, Side.Debit⟩,
                ⟨"r", "4000", "Sales Revenue", AcctType.Revenue, Side.Credit⟩] : List Account),
          a.id = l.accountId)
    ∧ entriesBalanced [⟨"l1", "e1", "c", "", 500, 0, 1⟩, ⟨"l2", "e1", "r", "", 0, 500, 2⟩]
    ∧ ((renderBalanceSheet
          [⟨"c", "1000", "Cash", AcctType.Asset, Side.Debit⟩,
           ⟨"r", "4000", "Sales Revenue", AcctType.Revenue, Side.Credit⟩]
          [⟨"l1", "e1", "c", "", 500, 0, 1⟩, ⟨"l2", "e1", "r", "", 0, 500, 2⟩]).totalAssets
        - ((renderBalanceSheet
          [⟨"c", "1000", "Cash", AcctType.Asset, Side.Debit⟩,
           ⟨"r", "4000", "Sales Revenue", AcctType.Revenue, Side.Credit⟩]
          [⟨"l1", "e1", "c", "", 500, 0, 1⟩, ⟨"l2", "e1", "r", "", 0, 500, 2⟩]).totalLiab
          + (renderBalanceSheet
          [⟨"c", "1000", "Cash", AcctType.Asset, Side.Debit⟩,
           ⟨"r", "4000", "Sales Revenue", AcctType.Revenue, Side.Credit⟩]
          [⟨"l1", "e1", "c", "", 500, 0, 1⟩, ⟨"l2", "e1", "r", "", 0, 500, 2⟩]).totalEquity)
        = 0) := by
  have hbal : entriesBalanced
      [⟨"l1", "e1", "c", "", 500, 0, 1⟩, ⟨"l2", "e1", "r", "", 0, 500, 2⟩] := by
    intro eid hmem
    simp only [List.map_cons, List.map_nil, List.mem_cons, List.not_mem_nil, or_false] at hmem
    rcases hmem with rfl | rfl
    all_goals norm_num +decide [List.filter]
  refine ⟨by decide, by decide, hbal, ?_⟩
  exact (claim_C1_accounting_equation
    [⟨"c", "1000", "Cash", AcctType.Asset, Side.Debit⟩,
     ⟨"r", "4000", "Sales Revenue", AcctType.Revenue, Side.Credit⟩]
    [⟨"l1", "e1", "c", "", 500, 0, 1⟩, ⟨"l2", "e1", "r", "", 0, 500, 2⟩]
    (by decide) (by decide) hbal).1

/-! ### Claim C4: trial-balance duality -/

theorem foldl_stepAt_pair (k : String) (lines : List Line) (a : Account) (q1 q2 : ℚ) :
    lines.foldl
      (stepAt Line.accountId k
        (fun l (v : Account × ℚ × ℚ) => (v.1, v.2.1 + l.debit, v.2.2 + l.credit)))
      (a, q1, q2)
      = (a, q1 + sumIf k Line.debit lines, q2 + sumIf k Line.credit lines) := by
  induction lines generalizing q1 q2 with
  | nil => simp [sumIf]
  | cons l ls ih =>
    rw [List.foldl_cons]
    by_cases h : l.accountId = k
    · rw [show stepAt Line.accountId k
          (fun l (v : Account × ℚ × ℚ) => (v.1, v.2.1 + l.debit, v.2.2 + l.credit))
          (a, q1, q2) l = (a, q1 + l.debit, q2 + l.credit) from if_pos h]
      rw [ih]
      unfold sumIf
      simp [h, add_assoc]
    · rw [show stepAt Line.accountId k
          (fun l (v : Account × ℚ × ℚ) => (v.1, v.2.1 + l.debit, v.2.2 + l.credit))
          (a, q1, q2) l = (a, q1, q2) from if_neg h]
      rw [ih]
      unfold sumIf
      simp [h]

theorem renderTrialBalance_rows (accounts : List Account) (lines : List Line) :
    renderTrialBalance accounts lines
      = { rows := trialRows accounts lines,
          totalDr := ((trialRows accounts lines).map (fun v => v.2.1)).sum,
          totalCr := ((trialRows accounts lines).map (fun v => v.2.2)).sum,
          balanced := decide (|((trialRows accounts lines).map (fun v => v.2.1)).sum
              - ((trialRows accounts lines).map (fun v => v.2.2)).sum| < 1/100) } := by
  have hinner : List.map Prod.snd
      (List.map (fun p => (p.1, List.foldl (stepAt Line.accountId p.1
          (fun l (v : Account × ℚ × ℚ) => (v.1, v.2.1 + l.debit, v.2.2 + l.credit))) p.2
        lines)) (List.map (fun a => (a.id, a, (0 : ℚ), (0 : ℚ))) (dedupById accounts)))
      = List.map (fun a => (a, sumIf a.id Line.debit lines, sumIf a.id Line.credit lines))
          (dedupById accounts) := by
    rw [List.map_map, List.map_map]
    apply List.map_congr_left
    intro a _
    simp only [Function.comp_apply]
    rw [foldl_stepAt_pair]
    simp
  simp only [renderTrialBalance, trialRows]
  rw [buildKeyed_eq,
    foldl_bumpKey Line.accountId
      (fun l (v : Account × ℚ × ℚ) => (v.1, v.2.1 + l.debit, v.2.2 + l.credit)),
    hinner]

/-- C4 counterexample: a single balanced entry whose debit line references no
existing account.  The trial balance skips the orphan line, so its grand
totalDebit is 0 while the sum of all lines' debit fields is 100, and
totalDebit ≠ totalCredit even though every entry balances. -/
theorem claim_C4_counterexample :
    entriesBalanced
      [⟨"l1", "e1", "zzz", "", 100, 0, 1⟩, ⟨"l2", "e1", "a", "", 0, 100, 2⟩]
    ∧ (renderTrialBalance
        [⟨"a", "1000", "Cash", AcctType.Asset, Side.Debit⟩]
        [⟨"l1", "e1", "zzz", "", 100, 0, 1⟩, ⟨"l2", "e1", "a", "", 0, 100, 2⟩]).totalDr = 0
    ∧ (([⟨"l1", "e1", "zzz", "", 100, 0, 1⟩, ⟨"l2", "e1", "a", "", 0, 100, 2⟩] :
          List Line).map Line.debit).sum = 100
    ∧ (renderTrialBalance
        [⟨"a", "1000", "Cash", AcctType.Asset, Side.Debit⟩]
        [⟨"l1", "e1", "zzz", "", 100, 0, 1⟩, ⟨"l2", "e1", "a", "", 0, 100, 2⟩]).totalCr = 100 := by
  refine ⟨?_, ?_, ?_, ?_⟩
  · intro eid hmem
    simp only [List.map_cons, List.map_nil, List.mem_cons, List.not_mem_nil, or_false] at hmem
    rcases hmem with rfl | rfl
    all_goals norm_num +decide [List.filter]
  · norm_num +decide [renderTrialBalance, buildKeyed, upsertKey, bumpKey,
      List.insertionSort, List.orderedInsert]
  · norm_num
  · norm_num +decide [renderTrialBalance, buildKeyed, upsertKey, bumpKey,
      List.insertionSort, List.orderedInsert]

/-- C4 (amended): for non-negative line amounts, the Trial Balance's grand
totalDebit (resp. totalCredit) equals the sum of the debit (resp. credit)
fields of exactly the journal lines that reference an existing account —
lines with an unknown accountId are skipped, not included; when additionally
every line references an existing account and every entry individually
balances, totalDebit equals totalCredit exactly. -/
theorem claim_C4_trial_balance_duality (accounts : List Account) (lines : List Line)
    (hnn : ∀ l ∈ lines, 0 ≤ l.debit ∧ 0 ≤ l.credit) :
    ((renderTrialBalance accounts lines).totalDr
        = ((lines.filter
            (fun l => accounts.any (fun a => decide (a.id = l.accountId)))).map Line.debit).sum
      ∧ (renderTrialBalance accounts lines).totalCr
        = ((lines.filter
            (fun l => accounts.any (fun a => decide (a.id = l.accountId)))).map Line.credit).sum)
    ∧ ((∀ l ∈ lines, ∃ a ∈ accounts, a.id = l.accountId) → entriesBalanced lines →
        (renderTrialBalance accounts lines).totalDr
          = (renderTrialBalance accounts lines).totalCr) := by
  have hnd := dedupById_ids_nodup accounts
  have hany : ∀ k : String,
      ((dedupById accounts).any (fun a => decide (a.id = k)))
        = (accounts.any (fun a => decide (a.id = k))) := by
    intro k
    cases hb : accounts.any (fun a => decide (a.id = k)) with
    | true =>
      rcases List.any_eq_true.mp hb with ⟨a, ha, hdec⟩
      rcases dedupById_key_mem accounts k ⟨a, ha, of_decide_eq_true hdec⟩ with ⟨x, hx, hxid⟩
      exact List.any_eq_true.mpr ⟨x, hx, decide_eq_true hxid⟩
    | false =>
      apply List.any_eq_false.mpr
      intro x hx
      exact List.any_eq_false.mp hb x (dedupById_subset accounts x hx)
  have hlift : ∀ (g : Line → ℚ), (∀ l ∈ lines, 0 ≤ g l) →
      (∀ l : Line, l.debit = 0 → l.credit = 0 → g l = 0) →
      ((dedupById accounts).map (fun a =>
        if (decide (0 < sumIf a.id Line.debit lines)
            || decide (0 < sumIf a.id Line.credit lines)) = true
        then sumIf a.id g lines else 0)).sum
      = ((lines.filter
          (fun l => accounts.any (fun a => decide (a.id = l.accountId)))).map g).sum := by
    intro g hg hgz
    have hpt : ∀ a ∈ dedupById accounts,
        (if (decide (0 < sumIf a.id Line.debit lines)
            || decide (0 < sumIf a.id Line.credit lines)) = true
         then sumIf a.id g lines else 0) = sumIf a.id g lines := by
      intro a _
      by_cases hp : (decide (0 < sumIf a.id Line.debit lines)
          || decide (0 < sumIf a.id Line.credit lines)) = true
      · rw [if_pos hp]
      · rw [if_neg hp]
        simp only [Bool.or_eq_true, decide_eq_true_eq, not_or, not_lt] at hp
        have hz : ∀ l ∈ lines, l.accountId = a.id → g l = 0 := by
          intro l hl hla
          rcases hnn l hl with ⟨hd, hc⟩
          have hdz : l.debit = 0 := by
            by_contra hne
            have hpos : 0 < l.debit := lt_of_le_of_ne hd (fun he => hne he.symm)
            have : 0 < sumIf a.id Line.debit lines := by
              have hterm : (0 : ℚ) < (if l.accountId = a.id then l.debit else 0) := by
                rw [if_pos hla]; exact hpos
              calc (0 : ℚ) < (if l.accountId = a.id then l.debit else 0) := hterm
                _ ≤ sumIf a.id Line.debit lines := by
                    apply List.single_le_sum
                    · intro x hx
                      rcases List.mem_map.mp hx with ⟨y, hy, rfl⟩
                      by_cases hya : y.accountId = a.id
                      · rw [if_pos hya]; exact (hnn y hy).1
                      · rw [if_neg hya]
                    · exact List.mem_map.mpr ⟨l, hl, rfl⟩
            exact absurd this (not_lt.mpr hp.1)
          have hcz : l.credit = 0 := by
            by_contra hne
            have hpos : 0 < l.credit := lt_of_le_of_ne hc (fun he => hne he.symm)
            have : 0 < sumIf a.id Line.credit lines := by
              have hterm : (0 : ℚ) < (if l.accountId = a.id then l.credit else 0) := by
                rw [if_pos hla]; exact hpos
              calc (0 : ℚ) < (if l.accountId = a.id then l.credit else 0) := hterm
                _ ≤ sumIf a.id Line.credit lines := by
                    apply List.single_le_sum
                    · intro x hx
                      rcases List.mem_map.mp hx with ⟨y, hy, rfl⟩
                      by_cases hya : y.accountId = a.id
                      · rw [if_pos hya]; exact (hnn y hy).2
                      · rw [if_neg hya]
                    · exact List.mem_map.mpr ⟨l, hl, rfl⟩
            exact absurd this (not_lt.mpr hp.2)
          exact hgz l hdz hcz
        symm
        unfold sumIf
        apply List.sum_eq_zero
        intro x hx
        rcases List.mem_map.mp hx with ⟨l, hl, rfl⟩
        by_cases hla : l.accountId = a.id
        · rw [if_pos hla]; exact hz l hl hla
        · rw [if_neg hla]
    have hswap : (lines.map (fun l =>
          if ((dedupById accounts).any (fun a => decide (a.id = l.accountId))) = true
          then g l else 0))
        = (lines.map (fun l =>
          if (accounts.any (fun a => decide (a.id = l.accountId))) = true
          then g l else 0)) :=
      List.map_congr_left (fun l _ => by rw [hany l.accountId])
    rw [List.map_congr_left hpt,
      sum_sumIf_eq (dedupById accounts) hnd g lines, hswap,
      ← sum_map_filter_general
        (fun l => accounts.any (fun a => decide (a.id = l.accountId))) g lines]
  have htotDr : (renderTrialBalance accounts lines).totalDr
      = ((lines.filter
          (fun l => accounts.any (fun a => decide (a.id = l.accountId)))).map Line.debit).sum := by
    rw [renderTrialBalance_rows]
    show ((trialRows accounts lines).map (fun v => v.2.1)).sum = _
    unfold trialRows
    rw [sum_insertionSort_map, sum_map_filter_general, List.map_map]
    exact hlift Line.debit (fun l hl => (hnn l hl).1) (fun l h _ => h)
  have htotCr : (renderTrialBalance accounts lines).totalCr
      = ((lines.filter
          (fun l => accounts.any (fun a => decide (a.id = l.accountId)))).map Line.credit).sum := by
    rw [renderTrialBalance_rows]
    show ((trialRows accounts lines).map (fun v => v.2.2)).sum = _
    unfold trialRows
    rw [sum_insertionSort_map, sum_map_filter_general, List.map_map]
    exact hlift Line.credit (fun l hl => (hnn l hl).2) (fun l _ h => h)
  refine ⟨⟨htotDr, htotCr⟩, ?_⟩
  intro hknown hbal
  have hfull : lines.filter (fun l => accounts.any (fun a => decide (a.id = l.accountId)))
      = lines := by
    apply List.filter_eq_self.mpr
    intro l hl
    rcases hknown l hl with ⟨a, ha, haid⟩
    exact List.any_eq_true.mpr ⟨a, ha, decide_eq_true haid⟩
  rw [htotDr, htotCr, hfull]
  exact entriesBalanced_sum lines hbal

/-- Witness for C4: first at a balanced two-line ledger extended with an
orphan 70-debit line (the grand totals equal the sums over the two lines that
reference an existing account, the orphan line being skipped), then at the
fully-referenced balanced two-line ledger (the two grand totals coincide). -/
theorem claim_C4_witness :
    (∀ l ∈ ([⟨"l1", "e1", "c", "", 500, 0, 1⟩, ⟨"l2", "e1", "r", "", 0, 500, 2⟩,
             ⟨"l3", "e2", "zzz", "", 70, 0, 3⟩] : List Line),
        0 ≤ l.debit ∧ 0 ≤ l.credit)
    ∧ ((renderTrialBalance
          [⟨"c", "1000", "Cash", AcctType.Asset, Side.Debit⟩,
           ⟨"r", "4000", "Sales Revenue", AcctType.Revenue, Side.Credit⟩]
          [⟨"l1", "e1", "c", "", 500, 0, 1⟩, ⟨"l2", "e1", "r", "", 0, 500, 2⟩,
           ⟨"l3", "e2", "zzz", "", 70, 0, 3⟩]).totalDr
        = ((([⟨"l1", "e1", "c", "", 500, 0, 1⟩, ⟨"l2", "e1", "r", "", 0, 500, 2⟩,
              ⟨"l3", "e2", "zzz", "", 70, 0, 3⟩] : List Line).filter
            (fun l => ([⟨"c", "1000", "Cash", AcctType.Asset, Side.Debit⟩,
                        ⟨"r", "4000", "Sales Revenue", AcctType.Revenue, Side.Credit⟩] :
                List Account).any (fun a => decide (a.id = l.accountId)))).map Line.debit).sum
      ∧ (renderTrialBalance
          [⟨"c", "1000", "Cash", AcctType.Asset, Side.Debit⟩,
           ⟨"r", "4000", "Sales Revenue", AcctType.Revenue, Side.Credit⟩]
          [⟨"l1", "e1", "c", "", 500, 0, 1⟩, ⟨"l2", "e1", "r", "", 0, 500, 2⟩,
           ⟨"l3", "e2", "zzz", "", 70, 0, 3⟩]).totalCr
        = ((([⟨"l1", "e1", "c", "", 500, 0, 1⟩, ⟨"l2", "e1", "r", "", 0, 500, 2⟩,
              ⟨"l3", "e2", "zzz", "", 70, 0, 3⟩] : List Line).filter
            (fun l => ([⟨"c", "1000", "Cash", AcctType.Asset, Side.Debit⟩,
                        ⟨"r", "4000", "Sales Revenue", AcctType.Revenue, Side.Credit⟩] :
                List Account).any (fun a => decide (a.id = l.accountId)))).map Line.credit).sum)
    ∧ entriesBalanced [⟨"l1", "e1", "c", "", 500, 0, 1⟩, ⟨"l2", "e1", "r", "", 0, 500, 2⟩]
    ∧ (renderTrialBalance
          [⟨"c", "1000", "Cash", AcctType.Asset, Side.Debit⟩,
           ⟨"r", "4000", "Sales Revenue", AcctType.Revenue, Side.Credit⟩]
          [⟨"l1", "e1", "c", "", 500, 0, 1⟩, ⟨"l2", "e1", "r", "", 0, 500, 2⟩]).totalDr
        = (renderTrialBalance
          [⟨"c", "1000", "Cash", AcctType.Asset, Side.Debit⟩,
           ⟨"r", "4000", "Sales Revenue", AcctType.Revenue, Side.Credit⟩]
          [⟨"l1", "e1", "c", "", 500, 0, 1⟩, ⟨"l2", "e1", "r", "", 0, 500, 2⟩]).totalCr := by
  have hbal : entriesBalanced
      [⟨"l1", "e1", "c", "", 500, 0, 1⟩, ⟨"l2", "e1", "r", "", 0, 500, 2⟩] := by
    intro eid hmem
    simp only [List.map_cons, List.map_nil, List.mem_cons, List.not_mem_nil, or_false] at hmem
    rcases hmem with rfl | rfl
    all_goals norm_num +decide [List.filter]
  refine ⟨by norm_num, ?_, hbal, ?_⟩
  · exact (claim_C4_trial_balance_duality
      [⟨"c", "1000", "Cash", AcctType.Asset, Side.Debit⟩,
       ⟨"r", "4000", "Sales Revenue", AcctType.Revenue, Side.Credit⟩]
      [⟨"l1", "e1", "c", "", 500, 0, 1⟩, ⟨"l2", "e1", "r", "", 0, 500, 2⟩,
       ⟨"l3", "e2", "zzz", "", 70, 0, 3⟩]
      (by norm_num)).1
  · exact (claim_C4_trial_balance_duality
      [⟨"c", "1000", "Cash", AcctType.Asset, Side.Debit⟩,
       ⟨"r", "4000", "Sales Revenue", AcctType.Revenue, Side.Credit⟩]
      [⟨"l1", "e1", "c", "", 500, 0, 1⟩, ⟨"l2", "e1", "r", "", 0, 500, 2⟩]
      (by norm_num)).2 (by decide) hbal

/-! ### Claim C6: income statement -/

theorem sum_filter_nonzero (xs : List ℚ) :
    (xs.filter (fun b => decide (b ≠ 0))).sum = xs.sum := by
  induction xs with
  | nil => rfl
  | cons x xs ih =>
    by_cases h : x = 0
    · rw [List.filter_cons_of_neg (by simp [h]), ih, List.sum_cons, h, zero_add]
    · rw [List.filter_cons_of_pos (by simp [h]), List.sum_cons, ih, List.sum_cons]

theorem sum_map_filter_sort {β : Type} (r : β → β → Prop) [DecidableRel r]
    (q : β → Bool) (f : β → ℚ) (xs : List β) :
    (((List.insertionSort r xs).filter q).map f).sum = ((xs.filter q).map f).sum :=
  (((List.perm_insertionSort r xs).filter q).map f).sum_eq

/-- C6 counterexample: the on-screen Income Statement does not omit
zero-balance accounts — a revenue account with no lines still produces a line
item (with amount 0). -/
theorem claim_C6_counterexample :
    (renderIncomeStatement
        [⟨"r", "4000", "Sales Revenue", AcctType.Revenue, Side.Credit⟩] []).revItems
      = [("Sales Revenue", 0)]
    ∧ (("Sales Revenue", (0 : ℚ)) ∈ (renderIncomeStatement
        [⟨"r", "4000", "Sales Revenue", AcctType.Revenue, Side.Credit⟩] []).revItems) := by
  have h : (renderIncomeStatement
      [⟨"r", "4000", "Sales Revenue", AcctType.Revenue, Side.Credit⟩] []).revItems
      = [("Sales Revenue", 0)] := by
    norm_num +decide [renderIncomeStatement, balancesAccounts, getAccountBalances,
      buildKeyed, upsertKey, sortByCode, List.insertionSort, List.orderedInsert,
      pdfGetBalance]
  exact ⟨h, by rw [h]; exact List.mem_singleton.mpr rfl⟩

/-- C6 (amended): with a chart whose ids are distinct and in which exactly
one account carries code `'5000'` and that account is an Expense account, the
Income Statement reports COGS as that account's display balance, Gross Profit
as Total Revenue − COGS, and Net Income as Gross Profit minus the other
expense accounts' total; zero-balance accounts are omitted from the line
items of the PDF export only — the on-screen view lists them — and in the PDF
export they still contribute (zero) to the same totals, whose Total Revenue
and Net Income agree with the on-screen view. -/
theorem claim_C6_income_statement (accounts : List Account) (lines : List Line)
    (hnd : (accounts.map Account.id).Nodup) (c : Account)
    (hc : accounts.filter (fun a => decide (a.code = "5000")) = [c])
    (hct : c.type = AcctType.Expense) :
    (renderIncomeStatement accounts lines).totalCOGS = pdfGetBalance c lines
    ∧ (renderIncomeStatement accounts lines).grossProfit
        = (renderIncomeStatement accounts lines).totalRev
          - (renderIncomeStatement accounts lines).totalCOGS
    ∧ (renderIncomeStatement accounts lines).netIncome
        = (renderIncomeStatement accounts lines).grossProfit
          - (renderIncomeStatement accounts lines).totalOpEx
    ∧ (∀ r ∈ (pdfIncomeStatement accounts lines).revItems, r.2 ≠ 0)
    ∧ (∀ r ∈ (pdfIncomeStatement accounts lines).opExItems, r.2 ≠ 0)
    ∧ (pdfIncomeStatement accounts lines).totalRev
        = (renderIncomeStatement accounts lines).totalRev
    ∧ (pdfIncomeStatement accounts lines).netIncome
        = (renderIncomeStatement accounts lines).netIncome := by
  have hacc : balancesAccounts accounts lines = accounts := by
    rw [balancesAccounts_eq, dedupById_eq_self accounts hnd]
  have hmemc : c ∈ accounts.filter (fun a => decide (a.code = "5000")) := by
    rw [hc]; exact List.mem_singleton.mpr rfl
  have hcacc : c ∈ accounts := List.mem_of_mem_filter hmemc
  have hccode : c.code = "5000" := by simpa using List.of_mem_filter hmemc
  have huniq : ∀ x ∈ accounts, x.code = "5000" → x = c := by
    intro x hx hxc
    have : x ∈ accounts.filter (fun a => decide (a.code = "5000")) :=
      List.mem_filter.mpr ⟨hx, by simp [hxc]⟩
    rw [hc] at this
    exact List.mem_singleton.mp this
  have hfindExp : (List.insertionSort (fun a b : Account => a.code ≤ b.code)
      (accounts.filter (fun a => decide (a.type = AcctType.Expense)))).find?
        (fun a => decide (a.code = "5000")) = some c := by
    cases hfind : (List.insertionSort (fun a b : Account => a.code ≤ b.code)
        (accounts.filter (fun a => decide (a.type = AcctType.Expense)))).find?
          (fun a => decide (a.code = "5000")) with
    | none =>
      exfalso
      rw [List.find?_eq_none] at hfind
      have hmem : c ∈ List.insertionSort (fun a b : Account => a.code ≤ b.code)
          (accounts.filter (fun a => decide (a.type = AcctType.Expense))) :=
        (List.perm_insertionSort _ _).mem_iff.mpr
          (List.mem_filter.mpr ⟨hcacc, by simp [hct]⟩)
      exact hfind c hmem (by simp [hccode])
    | some x =>
      have hx1 : x.code = "5000" := by simpa using List.find?_some hfind
      have hx2 : x ∈ accounts :=
        List.mem_of_mem_filter ((List.perm_insertionSort _ _).mem_iff.mp
          (List.mem_of_find?_eq_some hfind))
      rw [huniq x hx2 hx1]
  have hfindAll : accounts.find? (fun a => decide (a.code = "5000")) = some c := by
    cases hfind : accounts.find? (fun a => decide (a.code = "5000")) with
    | none =>
      exfalso
      rw [List.find?_eq_none] at hfind
      exact hfind c hcacc (by simp [hccode])
    | some x =>
      have hx1 : x.code = "5000" := by simpa using List.find?_some hfind
      have hx2 : x ∈ accounts := List.mem_of_find?_eq_some hfind
      rw [huniq x hx2 hx1]
  refine ⟨?_, ?_, ?_, ?_, ?_, ?_, ?_⟩
  · simp only [renderIncomeStatement, sortByCode, hacc, hfindExp]
  · simp only [renderIncomeStatement]
  · simp only [renderIncomeStatement]
  · simp only [pdfIncomeStatement]
    intro r hr
    have := List.of_mem_filter hr
    simpa using this
  · simp only [pdfIncomeStatement]
    intro r hr
    have := List.of_mem_filter hr
    simpa using this
  · simp only [pdfIncomeStatement, renderIncomeStatement, sortByCode, hacc]
    rw [sum_filter_nonzero, sum_insertionSort_map]
  · simp only [pdfIncomeStatement, renderIncomeStatement, sortByCode, hacc, hfindAll, hfindExp]
    rw [sum_filter_nonzero, sum_filter_nonzero, sum_insertionSort_map, sum_map_filter_sort]
    ring

/-- Witness for C6 at a concrete chart with a unique Expense account of code
5000. -/
theorem claim_C6_witness :
    (([⟨"g", "5000", "Cost of Goods Sold", AcctType.Expense, Side.Debit⟩,
       ⟨"r", "4000", "Sales Revenue", AcctType.Revenue, Side.Credit⟩] :
        List Account).map Account.id).Nodup
    ∧ ([⟨"g", "5000", "Cost of Goods Sold", AcctType.Expense, Side.Debit⟩,
        ⟨"r", "4000", "Sales Revenue", AcctType.Revenue, Side.Credit⟩] :
        List Account).filter (fun a => decide (a.code = "5000"))
      = [⟨"g", "5000", "Cost of Goods Sold", AcctType.Expense, Side.Debit⟩]
    ∧ (renderIncomeStatement
        [⟨"g", "5000", "Cost of Goods Sold", AcctType.Expense, Side.Debit⟩,
         ⟨"r", "4000", "Sales Revenue", AcctType.Revenue, Side.Credit⟩]
        [⟨"l1", "e1", "g", "", 100, 0, 1⟩]).totalCOGS
      = pdfGetBalance
          ⟨"g", "5000", "Cost of Goods Sold", AcctType.Expense, Side.Debit⟩
          [⟨"l1", "e1", "g", "", 100, 0, 1⟩] :=
  ⟨by decide, by decide,
    (claim_C6_income_statement
      [⟨"g", "5000", "Cost of Goods Sold", AcctType.Expense, Side.Debit⟩,
       ⟨"r", "4000", "Sales Revenue", AcctType.Revenue, Side.Credit⟩]
      [⟨"l1", "e1", "g", "", 100, 0, 1⟩]
      (by decide)
      ⟨"g", "5000", "Cost of Goods Sold", AcctType.Expense, Side.Debit⟩
      (by decide) (by decide)).1⟩

/-! ### Claim C7: general-ledger running balance -/

theorem runBalsFrom_length (s : ℚ) (ls : List Line) :
    (runBalsFrom s ls).length = ls.length := by
  induction ls generalizing s with
  | nil => rfl
  | cons l ls ih => simp [runBalsFrom, ih]

theorem runBalsFrom_getD (s : ℚ) (ls : List Line) (k : ℕ) (hk : k < ls.length) :
    (runBalsFrom s ls).getD k 0
      = s + ((ls.take (k + 1)).map (fun l => l.debit - l.credit)).sum := by
  induction ls generalizing s k with
  | nil => exact absurd hk (by simp)
  | cons l ls ih =>
    cases k with
    | zero => simp [runBalsFrom]
    | succ k =>
      have hk' : k < ls.length := by simpa using hk
      show (runBalsFrom (s + (l.debit - l.credit)) ls).getD k 0 = _
      rw [ih (s + (l.debit - l.credit)) k hk']
      simp [List.take_succ_cons, add_assoc]

theorem getD_map_rat (f : ℚ → ℚ) (xs : List ℚ) (k : ℕ) (hk : k < xs.length) :
    (xs.map f).getD k 0 = f (xs.getD k 0) := by
  induction xs generalizing k with
  | nil => exact absurd hk (by simp)
  | cons x xs ih =>
    cases k with
    | zero => rfl
    | succ k => exact ih k (by simpa using hk)

/-- C7 counterexample: for a credit-normal account with a single 100-credit
line, the on-screen ledger shows a display balance of 100, but the PDF export
prints the raw running balance −100 without re-signing (its currency
formatter then takes the absolute value) — so the re-signing is not applied
in every rendering path. -/
theorem claim_C7_counterexample :
    renderGLData
        [⟨"p", "2000", "Accounts Payable", AcctType.Liability, Side.Credit⟩]
        [⟨"l1", "e1", "p", "", 0, 100, 1⟩]
      = [(⟨"p", "2000", "Accounts Payable", AcctType.Liability, Side.Credit⟩, [100])]
    ∧ pdfLedgerSections
        [⟨"p", "2000", "Accounts Payable", AcctType.Liability, Side.Credit⟩]
        [⟨"l1", "e1", "p", "", 0, 100, 1⟩]
      = [(⟨"p", "2000", "Accounts Payable", AcctType.Liability, Side.Credit⟩, [-100])]
    ∧ ((-100 : ℚ) ≠ 100) := by
  refine ⟨?_, ?_, by norm_num⟩
  · norm_num +decide [renderGLData, glDisplayBalances, runBalsFrom,
      List.insertionSort, List.orderedInsert]
  · norm_num +decide [pdfLedgerSections, runBalsFrom, balancesAccounts,
      getAccountBalances, buildKeyed, upsertKey, bumpKey]

/-- C7 (amended): the on-screen General Ledger's k-th displayed balance is
the cumulative sum of debit − credit over the first k+1 lines, re-signed per
the account's normal side; the PDF export's k-th balance is the same
cumulative sum without the re-signing (the two agree in absolute value, which
is what the PDF's currency formatter prints); each view's section for an
account carries exactly these per-line balances. -/
theorem claim_C7_running_balance :
    (∀ (acc : Account) (accLines : List Line) (k : ℕ), k < accLines.length →
      (glDisplayBalances acc accLines).getD k 0
        = (if acc.normal = Side.Credit
           then -(((accLines.take (k + 1)).map (fun l => l.debit - l.credit)).sum)
           else ((accLines.take (k + 1)).map (fun l => l.debit - l.credit)).sum)
      ∧ (runBalsFrom 0 accLines).getD k 0
          = ((accLines.take (k + 1)).map (fun l => l.debit - l.credit)).sum
      ∧ |(glDisplayBalances acc accLines).getD k 0|
          = |(runBalsFrom 0 accLines).getD k 0|)
    ∧ (∀ (accounts : List Account) (lines : List Line),
        ∀ s ∈ renderGLData accounts lines,
          s.2 = glDisplayBalances s.1 (lines.filter (fun l => decide (l.accountId = s.1.id))))
    ∧ (∀ (accounts : List Account) (lines : List Line),
        ∀ s ∈ pdfLedgerSections accounts lines,
          s.2 = runBalsFrom 0 (lines.filter (fun l => decide (l.accountId = s.1.id)))) := by
  have hraw : ∀ (accLines : List Line) (k : ℕ), k < accLines.length →
      (runBalsFrom 0 accLines).getD k 0
        = ((accLines.take (k + 1)).map (fun l => l.debit - l.credit)).sum := by
    intro accLines k hk
    rw [runBalsFrom_getD 0 accLines k hk, zero_add]
  have hgl : ∀ (acc : Account) (accLines : List Line) (k : ℕ), k < accLines.length →
      (glDisplayBalances acc accLines).getD k 0
        = (if acc.normal = Side.Credit
           then -(((accLines.take (k + 1)).map (fun l => l.debit - l.credit)).sum)
           else ((accLines.take (k + 1)).map (fun l => l.debit - l.credit)).sum) := by
    intro acc accLines k hk
    unfold glDisplayBalances
    rw [getD_map_rat _ _ k (by rw [runBalsFrom_length]; exact hk), hraw accLines k hk]
  refine ⟨?_, ?_, ?_⟩
  · intro acc accLines k hk
    refine ⟨hgl acc accLines k hk, hraw accLines k hk, ?_⟩
    rw [hgl acc accLines k hk, hraw accLines k hk]
    by_cases h : acc.normal = Side.Credit
    · rw [if_pos h, abs_neg]
    · rw [if_neg h]
  · intro accounts lines s hs
    unfold renderGLData at hs
    rcases List.mem_map.mp hs with ⟨a, _, rfl⟩
    rfl
  · intro accounts lines s hs
    unfold pdfLedgerSections at hs
    rcases List.mem_map.mp hs with ⟨a, _, rfl⟩
    rfl

/-- Witness for C7 at a concrete credit-normal account with one line. -/
theorem claim_C7_witness :
    (0 : ℕ) < ([⟨"l1", "e1", "p", "", 0, 100, 1⟩] : List Line).length
    ∧ ((glDisplayBalances
          ⟨"p", "2000", "Accounts Payable", AcctType.Liability, Side.Credit⟩
          [⟨"l1", "e1", "p", "", 0, 100, 1⟩]).getD 0 0
        = (if (⟨"p", "2000", "Accounts Payable", AcctType.Liability, Side.Credit⟩ :
              Account).normal = Side.Credit
           then -(((([⟨"l1", "e1", "p", "", 0, 100, 1⟩] : List Line).take 1).map
              (fun l => l.debit - l.credit)).sum)
           else ((([⟨"l1", "e1", "p", "", 0, 100, 1⟩] : List Line).take 1).map
              (fun l => l.debit - l.credit)).sum)
      ∧ (runBalsFrom 0 [⟨"l1", "e1", "p", "", 0, 100, 1⟩]).getD 0 0
          = ((([⟨"l1", "e1", "p", "", 0, 100, 1⟩] : List Line).take 1).map
              (fun l => l.debit - l.credit)).sum
      ∧ |(glDisplayBalances
            ⟨"p", "2000", "Accounts Payable", AcctType.Liability, Side.Credit⟩
            [⟨"l1", "e1", "p", "", 0, 100, 1⟩]).getD 0 0|
          = |(runBalsFrom 0 [⟨"l1", "e1", "p", "", 0, 100, 1⟩]).getD 0 0|) :=
  ⟨by decide,
    claim_C7_running_balance.1
      ⟨"p", "2000", "Accounts Payable", AcctType.Liability, Side.Credit⟩
      [⟨"l1", "e1", "p", "", 0, 100, 1⟩] 0 (by decide)⟩

/-- C8 counterexample: on the line `Rent 5.00 0` the last currency-like
token is `0`, but the produced candidate's amount is 5 — the classifier takes
the last token among those parsing to a positive value, not the last matching
token. -/
theorem claim_C8_counterexample :
    (classify "Rent 5.00 0").map Candidate.amount = [5]
    ∧ (tokensOf "Rent 5.00 0").getLast? = some "0"
    ∧ parseFloatChars ['0'] = some 0
    ∧ ((5 : ℚ) ≠ 0) := by
  have h5 : natFromDigits ['5'] = 5 := by decide
  have h0 : natFromDigits ['0'] = 0 := by decide
  have h00 : natFromDigits ['0', '0'] = 0 := by decide
  have hnil : natFromDigits ([] : List Char) = 0 := by decide
  refine ⟨?_, by decide, ?_, by norm_num⟩
  · norm_num +decide [classify, classifyLine, positiveAmounts, tokensOf, scanLine, scanGo,
      tryMatchTok, splitNl, trimChars, collapseWs, collapseGo, testKw, containsRun,
      assetKwList, liabKwList, revKwList, expKwList, parseFloatChars, numFromParts,
      List.filterMap_cons, List.filterMap_nil, h5, h0, h00, hnil]
  · norm_num +decide [parseFloatChars, numFromParts, h0, hnil]

/-- C8 (amended): for every candidate the classifier produces, its amount is
the value of the last currency-like token on its line that parses to a
strictly positive value (tokens parsing to 0 or failing to parse are
skipped); in particular, when a line's positive token values are `[a, b]`
the candidate's amount is `b` — last-number-wins, never largest-number-wins. -/
theorem claim_C8_last_positive_wins :
    (∀ (text : String) (cand : Candidate), cand ∈ classify text →
        (positiveAmounts cand.originalLine).getLast? = some cand.amount)
    ∧ (∀ (text : String) (cand : Candidate) (a b : ℚ), cand ∈ classify text →
        positiveAmounts cand.originalLine = [a, b] → cand.amount = b) := by
  have hspec : ∀ (line : String) (cand : Candidate), classifyLine line = some cand →
      cand.originalLine = line ∧ (positiveAmounts line).getLast? = some cand.amount := by
    intro line cand h
    unfold classifyLine at h
    simp only [] at h
    cases hamt : (positiveAmounts line).getLast? with
    | none =>
      rw [hamt] at h
      simp at h
    | some amount =>
      rw [hamt] at h
      simp only [] at h
      split at h
      · split at h
        · split at h
          · cases h; exact ⟨rfl, rfl⟩
          · cases h
        · cases h
      · cases h
  constructor
  · intro text cand hc
    rcases List.mem_filterMap.mp hc with ⟨line, _, hline⟩
    obtain ⟨horig, hlast⟩ := hspec line cand hline
    rw [horig]
    exact hlast
  · intro text cand a b hc hab
    rcases List.mem_filterMap.mp hc with ⟨line, _, hline⟩
    obtain ⟨horig, hlast⟩ := hspec line cand hline
    rw [horig] at hab
    rw [hab] at hlast
    simpa using hlast.symm

/-- Witness for C8 on the line `Office Rent Expense $1,250.00`. -/
theorem claim_C8_witness :
    (⟨"Office Rent Expense", 1250, AcctType.Expense, "Office Rent Expense $1,250.00"⟩ :
        Candidate) ∈ classify "Office Rent Expense $1,250.00"
    ∧ (positiveAmounts
        (⟨"Office Rent Expense", 1250, AcctType.Expense,
          "Office Rent Expense $1,250.00"⟩ : Candidate).originalLine).getLast?
      = some (⟨"Office Rent Expense", 1250, AcctType.Expense,
          "Office Rent Expense $1,250.00"⟩ : Candidate).amount := by
  have h1250 : natFromDigits ['1', '2', '5', '0'] = 1250 := by decide
  have h00 : natFromDigits ['0', '0'] = 0 := by decide
  have hnil : natFromDigits ([] : List Char) = 0 := by decide
  have hmem : (⟨"Office Rent Expense", 1250, AcctType.Expense,
      "Office Rent Expense $1,250.00"⟩ : Candidate)
      ∈ classify "Office Rent Expense $1,250.00" := by
    rw [show classify "Office Rent Expense $1,250.00"
        = [⟨"Office Rent Expense", 1250, AcctType.Expense,
            "Office Rent Expense $1,250.00"⟩] from by
      norm_num +decide [classify, classifyLine, positiveAmounts, tokensOf, scanLine,
        scanGo, tryMatchTok, splitNl, trimChars, collapseWs, collapseGo, testKw,
        containsRun, assetKwList, liabKwList, revKwList, expKwList, parseFloatChars,
        numFromParts, List.filterMap_cons, List.filterMap_nil, h1250, h00, hnil]]
    exact List.mem_singleton.mpr rfl
  exact ⟨hmem,
    claim_C8_last_positive_wins.1 "Office Rent Expense $1,250.00" _ hmem⟩

/-- C9 counterexample: with a non-empty account list containing no account of
code `'1000'`, an Expense item's candidate has `creditAccount` undefined —
the cash side has no fallback to the first account. -/
theorem claim_C9_counterexample :
    ((mapToJournalEntries
        [⟨"Rent", 5, AcctType.Expense, "Rent 5.00"⟩]
        [⟨"e", "5100", "Salaries and Wages Expense", AcctType.Expense, Side.Debit⟩]).map
      CandidateEntry.creditAccount) = [none]
    ∧ ([⟨"e", "5100", "Salaries and Wages Expense", AcctType.Expense, Side.Debit⟩] :
        List Account) ≠ []
    ∧ ((none : Option Account)
        ≠ some ⟨"e", "5100", "Salaries and Wages Expense", AcctType.Expense, Side.Debit⟩) := by
  refine ⟨by decide, by decide, by decide⟩

/-- C9 (amended): each produced candidate's accounts follow the category
policy — Asset: debit = first Asset account of code ≠ '1000' (falling back to
the first account), credit = the account of code '1000'; Liability/Revenue:
debit = the account of code '1000', credit = first account of that type
(falling back to the first account); Expense: debit = first Expense account
(falling back to the first account), credit = the account of code '1000'.
Only the typed side falls back to the first account; the cash side is
undefined when no account has code '1000'.  When the account list is
non-empty and contains an account of code '1000', both sides of every
non-Equity candidate are defined. -/
theorem claim_C9_account_policy (classified : List Candidate) (accounts : List Account) :
    (∀ e ∈ mapToJournalEntries classified accounts,
      (e.category = AcctType.Asset →
        e.debitAccount = (accounts.find? (fun a =>
            decide (a.type = AcctType.Asset) && decide (a.code ≠ "1000"))).orElse
          (fun _ => accounts.head?)
        ∧ e.creditAccount = accounts.find? (fun a => decide (a.code = "1000")))
      ∧ (e.category = AcctType.Liability →
        e.debitAccount = accounts.find? (fun a => decide (a.code = "1000"))
        ∧ e.creditAccount = (accounts.find? (fun a =>
            decide (a.type = AcctType.Liability))).orElse (fun _ => accounts.head?))
      ∧ (e.category = AcctType.Revenue →
        e.debitAccount = accounts.find? (fun a => decide (a.code = "1000"))
        ∧ e.creditAccount = (accounts.find? (fun a =>
            decide (a.type = AcctType.Revenue))).orElse (fun _ => accounts.head?))
      ∧ (e.category = AcctType.Expense →
        e.debitAccount = (accounts.find? (fun a =>
            decide (a.type = AcctType.Expense))).orElse (fun _ => accounts.head?)
        ∧ e.creditAccount = accounts.find? (fun a => decide (a.code = "1000"))))
    ∧ (accounts ≠ [] → (∃ c ∈ accounts, c.code = "1000") →
        ∀ e ∈ mapToJournalEntries classified accounts,
          e.category ≠ AcctType.Equity →
          e.debitAccount.isSome ∧ e.creditAccount.isSome) := by
  have hfindCash : (∃ c ∈ accounts, c.code = "1000") →
      (accounts.find? (fun a => decide (a.code = "1000"))).isSome := by
    intro h
    cases hf : accounts.find? (fun a => decide (a.code = "1000")) with
    | some _ => rfl
    | none =>
      rw [List.find?_eq_none] at hf
      rcases h with ⟨c, hcmem, hcc⟩
      exact absurd (by simp [hcc]) (hf c hcmem)
  have hOrElse : accounts ≠ [] → ∀ (o : Option Account),
      (o.orElse (fun _ => accounts.head?)).isSome := by
    intro hne o
    cases o with
    | some _ => rfl
    | none =>
      cases accounts with
      | nil => exact absurd rfl hne
      | cons a as => rfl
  constructor
  · intro e he
    rcases List.mem_map.mp he with ⟨item, _, rfl⟩
    cases hcat : item.category
    all_goals exact ⟨fun h => by simp [hcat] at h ⊢,
      fun h => by simp [hcat] at h ⊢,
      fun h => by simp [hcat] at h ⊢,
      fun h => by simp [hcat] at h ⊢⟩
  · intro hne hcash e he hcat
    rcases List.mem_map.mp he with ⟨item, _, rfl⟩
    cases hc : item.category
    · simp only [hc]
      exact ⟨hOrElse hne _, hfindCash hcash⟩
    · simp only [hc]
      exact ⟨hfindCash hcash, hOrElse hne _⟩
    · simp only [hc] at hcat
      exact absurd rfl hcat
    · simp only [hc]
      exact ⟨hfindCash hcash, hOrElse hne _⟩
    · simp only [hc]
      exact ⟨hOrElse hne _, hfindCash hcash⟩

/-- Witness for C9 at a concrete chart with a cash account. -/
theorem claim_C9_witness :
    (([⟨"c", "1000", "Cash", AcctType.Asset, Side.Debit⟩,
       ⟨"e", "5200", "Rent Expense", AcctType.Expense, Side.Debit⟩] : List Account) ≠ [])
    ∧ (∃ c ∈ ([⟨"c", "1000", "Cash", AcctType.Asset, Side.Debit⟩,
        ⟨"e", "5200", "Rent Expense", AcctType.Expense, Side.Debit⟩] : List Account),
        c.code = "1000")
    ∧ (∀ e ∈ mapToJournalEntries
          [⟨"Rent", 5, AcctType.Expense, "Rent 5.00"⟩]
          [⟨"c", "1000", "Cash", AcctType.Asset, Side.Debit⟩,
           ⟨"e", "5200", "Rent Expense", AcctType.Expense, Side.Debit⟩],
        e.category ≠ AcctType.Equity →
        e.debitAccount.isSome ∧ e.creditAccount.isSome) :=
  ⟨by decide, ⟨⟨"c", "1000", "Cash", AcctType.Asset, Side.Debit⟩, by decide, by decide⟩,
    (claim_C9_account_policy
      [⟨"Rent", 5, AcctType.Expense, "Rent 5.00"⟩]
      [⟨"c", "1000", "Cash", AcctType.Asset, Side.Debit⟩,
       ⟨"e", "5200", "Rent Expense", AcctType.Expense, Side.Debit⟩]).2
      (by decide)
      ⟨⟨"c", "1000", "Cash", AcctType.Asset, Side.Debit⟩, by decide, by decide⟩⟩

end LedgerPro

